import Mathlib

/-!
The native gas contract (`smartcontract/service/native/gas/gas.go`), the genesis block
(`core/genesis/genesis.go`) and the parameter codec of the auth contract.

A shallow embedding of the handlers `GasInit`, `GasTransfer`, `GasTransferFrom`,
`GasApprove` and of `grantOng` / `getApproveArgs`, with the properties of the ledger they
maintain; of `GenesisBlockInit`; and of the serialisation of `FuncsToRoleParam`.

Unsigned 64-bit quantities are natural numbers; where the Go code can wrap, the
reduction modulo `2^64` is written out.  What the handlers take from packages whose
source is not part of this development (`constants`, `common`, `utils`, the
serialisers of `State`) is collected in the structure `Env`, so that every theorem
holds for every implementation of those helpers.
-/

namespace Gas

/-! ## Data model -/

/-- An account or contract address (`common.Address`), represented by its numeric value;
the zero value is the empty address `common.Address{}`. -/
abbrev Address := Nat

/-- A byte string (`[]byte`). -/
abbrev Bytes := List Nat

/-- The number of values of a `uint64`. -/
def U64 : Nat := 2 ^ 64

/-- Modelled from the spec: `constants.GAS_TOTAL_SUPPLY`, declared in package `constants`
(not in the source); section 8 of the spec gives the fixed total supply `1000000000`. -/
def GAS_TOTAL_SUPPLY : Nat := 1000000000

/-- Modelled from the spec: `utils.BYTE_TRUE`, the boolean-as-byte result "true". -/
def BYTE_TRUE : Bytes := [1]

/-- Modelled from the spec: `utils.BYTE_FALSE`, the boolean-as-byte result "false". -/
def BYTE_FALSE : Bytes := [0]

/-- The transient `State` of one movement or approval: `From`, `To`, `Value`. -/
structure State where
  From : Address
  To : Address
  Value : Nat
  deriving DecidableEq, Repr

/-- Modelled from the spec: the transient `TransferFrom` request (its declaration is not in
the source): the fields `From`, `To`, `Value` that `GasTransferFrom` reads; the spender is
implicit, the allowance being keyed by the pair `(from, to)` (section 4.3). -/
structure TransferFrom where
  From : Address
  To : Address
  Value : Nat
  deriving DecidableEq, Repr

/-- Modelled from the spec: the storage keys of section 4.1 (`GenBalanceKey`,
`GenApproveKey`, `GenTotalSupplyKey`, `genAddressUnboundOffsetKey` are declared in a file
that is not in the source).  One constructor per record kind, so that no two distinct
logical records share a key. -/
inductive Key where
  | balance (contract owner : Address)
  | approve (contract owner spender : Address)
  | totalSupply (contract : Address)
  | unboundOffset (contract owner : Address)
  deriving DecidableEq, Repr

/-- The key of the balance record of `addr` under `contract`. -/
def GenBalanceKey (contract addr : Address) : Key := Key.balance contract addr

/-- The key of the allowance record granted by `owner` to `spender` under `contract`. -/
def GenApproveKey (contract owner spender : Address) : Key := Key.approve contract owner spender

/-- The key of the total-supply record of `contract`. -/
def GenTotalSupplyKey (contract : Address) : Key := Key.totalSupply contract

/-- The key of the unbound-offset checkpoint of `address` under `contract`. -/
def genAddressUnboundOffsetKey (contract address : Address) : Key :=
  Key.unboundOffset contract address

/-- Modelled from the spec: the persistent key space behind `native.CacheDB` (section 3):
each record maps its key to an unsigned amount; `none` is a record that was never written. -/
abbrev Store := Key → Option Nat

/-- The write `CacheDB.Put(key, item)` of an unsigned storage item. -/
def Put (s : Store) (key : Key) (v : Nat) : Store :=
  fun k => if k = key then some v else s k

/-- Modelled from the spec: `utils.GetStorageUInt64` (not in the source); a missing record
reads as zero (sections 3 and 4.3).  Records hold decoded amounts, so a read does not fail
and the `err != nil` return that follows each read in the handlers is never taken. -/
def GetStorageUInt64 (s : Store) (key : Key) : Nat := (s key).getD 0

/-- Modelled from the spec: `getUnboundOffset` (not in the source); the owner's last
unbound-offset checkpoint, `0` if absent (section 4.4, step 1). -/
def getUnboundOffset (s : Store) (contract address : Address) : Nat :=
  (s (genAddressUnboundOffsetKey contract address)).getD 0

/-- A notification `(contract, from, to, value)` handed to the notification sink. -/
structure NotifyEventInfo where
  ContractAddress : Address
  From : Address
  To : Address
  Value : Nat
  deriving DecidableEq, Repr

/-- The errors the handlers return, one constructor per error site. -/
inductive Error where
  | initCompleted        -- "Init has been completed!"
  | deserialize          -- a parameter blob that does not deserialise
  | irregularData        -- `common.ErrIrregularData`
  | readNumber           -- "read number error"
  | readAddress          -- "read address error"
  | readValue            -- "read value error"
  | configOverflow       -- "wrong config. overflow detected"
  | supplyMismatch       -- "wrong config. total supply %d != %d"
  | overTotalSupply      -- "... amount:%d over totalSupply:%d"
  | authFailed           -- "authentication failed!"
  | wrongTimestamp       -- "grant Ong error: wrong timestamp ..."
  | insufficientBalance  -- `InsufficientBalance` of the account ledger
  | overflow             -- `Overflow` of the account ledger
  | insufficientAllowance -- `InsufficientAllowance` of the account ledger
  | unknownMethod        -- a cross-contract call to a method that is not registered
  deriving DecidableEq, Repr

/-- The part of `native.NativeService` the handlers read and write. -/
structure NativeService where
  /-- The transaction overlay over the persistent store. -/
  CacheDB : Store
  /-- The notifications emitted so far, oldest first. -/
  Notifications : List NotifyEventInfo
  /-- The raw invocation input. -/
  Input : Bytes
  /-- The chain time (a `uint32` block timestamp). -/
  Time : Nat
  /-- The address `ContextRef.CurrentContext().ContractAddress`. -/
  ContractAddress : Address
  /-- The witness check `ContextRef.CheckWitness`. -/
  CheckWitness : Address → Bool

/-- The pair `([]byte, error)` a handler returns, with the service state it leaves. -/
structure Outcome where
  ret : Bytes
  err : Option Error
  native : NativeService

/-- The result `(buf, _, irregular, eof)` of `ZeroCopySource.NextVarBytes`. -/
structure VarBytes where
  buf : Bytes
  irregular : Bool
  eof : Bool

/-- The helpers and constants of packages `constants`, `common` and `utils` and the
serialisers of `State`, whose source is not part of this development, taken as parameters.
A decoder maps the unread input to the decoded value and the input that remains. -/
structure Env where
  /-- The constant `constants.GENESIS_BLOCK_TIMESTAMP`. -/
  GENESIS_BLOCK_TIMESTAMP : Nat
  /-- The address `utils.GasContractAddress`. -/
  GasContractAddress : Address
  /-- The unbinding calculator `utils.CalcUnbindOng(balance, startOffset, endOffset)`. -/
  CalcUnbindOng : Nat → Nat → Nat → Nat
  /-- The reader `ZeroCopySource.NextVarBytes`. -/
  NextVarBytes : Bytes → VarBytes
  /-- The decoder `utils.DecodeVarUint`. -/
  DecodeVarUint : Bytes → Option (Nat × Bytes)
  /-- The decoder `utils.DecodeAddress`. -/
  DecodeAddress : Bytes → Option (Address × Bytes)
  /-- The decoder `State.Deserialization`. -/
  StateDeserialization : Bytes → Option State
  /-- The encoder `State.Serialization`. -/
  StateSerialization : State → Bytes
  /-- The decoder `Transfers.Deserialization`, giving `transfers.States`. -/
  TransfersDeserialization : Bytes → Option (List State)
  /-- The decoder `TransferFrom.Deserialization`. -/
  TransferFromDeserialization : Bytes → Option TransferFrom
  /-- The order in which a `range` over a Go map visits the entries it is given. -/
  rangeOrder : List (Address × Nat) → List (Address × Nat)

/-- Modelled from the spec: `common.SafeAdd` (not in the source), the checked addition of
section 4.2: the sum, and whether `x + y` leaves the unsigned 64-bit range. -/
def SafeAdd (x y : Nat) : Nat × Bool := ((x + y) % U64, decide (U64 ≤ x + y))

/-- Modelled from the spec: `AddNotifications` (not in the source): hands the transfer
`(contract, from, to, value)` to the notification sink. -/
def AddNotifications (native : NativeService) (contract : Address) (state : State) :
    NativeService :=
  { native with
    Notifications := native.Notifications ++ [⟨contract, state.From, state.To, state.Value⟩] }

/-! ## `GasInit` -/

/-- The statement `distribute[addr] += value` on a Go map, kept as an association list with
one entry per key: an absent key reads as zero, the addition wraps at `2^64`. -/
def mapAdd : List (Address × Nat) → Address → Nat → List (Address × Nat)
  | [], addr, value => [(addr, value % U64)]
  | (a, x) :: rest, addr, value =>
    if a = addr then (a, (x + value) % U64) :: rest else (a, x) :: mapAdd rest addr value

/-- The loop `for i := uint64(0); i < num; i++` of `GasInit`, with `n` iterations left:
decode an address and an amount, add the amount to `sum` with `SafeAdd`, accumulate it in
`distribute`. -/
def initLoop (env : Env) :
    Nat → Bytes → Nat → List (Address × Nat) → Except Error (Nat × List (Address × Nat))
  | 0, _, sum, distribute => .ok (sum, distribute)
  | n + 1, input, sum, distribute =>
    match env.DecodeAddress input with
    | none => .error Error.readAddress
    | some (addr, input1) =>
      match env.DecodeVarUint input1 with
      | none => .error Error.readValue
      | some (value, input2) =>
        if (SafeAdd sum value).2 then .error Error.configOverflow
        else initLoop env n input2 (SafeAdd sum value).1 (mapAdd distribute addr value)

/-- The loop `for addr, val := range distribute` of `GasInit` over the visited entries:
write the balance record and notify a transfer from the empty address. -/
def distributeLoop (contract : Address) :
    NativeService → List (Address × Nat) → NativeService
  | native, [] => native
  | native, (addr, val) :: rest =>
    let native1 := { native with CacheDB := Put native.CacheDB (GenBalanceKey contract addr) val }
    distributeLoop contract (AddNotifications native1 contract ⟨0, addr, val⟩) rest

/-- The handler `GasInit`.  When the input ends inside the parameter blob (line 72) the
error returned is `errors.NewDetailErr(err, ...)` for the `err` of line 60, which is nil
once line 61 is passed: the handler returns `BYTE_FALSE` with a nil error. -/
def GasInit (env : Env) (native : NativeService) : Outcome :=
  let contract := native.ContractAddress
  let amount := GetStorageUInt64 native.CacheDB (GenTotalSupplyKey contract)
  if amount > 0 then ⟨BYTE_FALSE, some Error.initCompleted, native⟩
  else
    let vb := env.NextVarBytes native.Input
    if vb.eof then ⟨BYTE_FALSE, none, native⟩
    else if vb.irregular then ⟨BYTE_FALSE, some Error.irregularData, native⟩
    else
      match env.DecodeVarUint vb.buf with
      | none => ⟨BYTE_FALSE, some Error.readNumber, native⟩
      | some (num, input) =>
        match initLoop env num input 0 [] with
        | .error e => ⟨BYTE_FALSE, some e, native⟩
        | .ok (sum, distribute) =>
          if sum ≠ GAS_TOTAL_SUPPLY then ⟨BYTE_FALSE, some Error.supplyMismatch, native⟩
          else
            let native1 := distributeLoop contract native (env.rangeOrder distribute)
            ⟨BYTE_TRUE, none,
              { native1 with
                CacheDB := Put native1.CacheDB (GenTotalSupplyKey contract) GAS_TOTAL_SUPPLY }⟩

/-! ## `GasApprove` -/

/-- The handler `GasApprove`. -/
def GasApprove (env : Env) (native : NativeService) : Outcome :=
  match env.StateDeserialization native.Input with
  | none => ⟨BYTE_FALSE, some Error.deserialize, native⟩
  | some state =>
    if state.Value > GAS_TOTAL_SUPPLY then ⟨BYTE_FALSE, some Error.overTotalSupply, native⟩
    else if native.CheckWitness state.From = false then
      ⟨BYTE_FALSE, some Error.authFailed, native⟩
    else
      let contract := native.ContractAddress
      ⟨BYTE_TRUE, none,
        { native with
          CacheDB := Put native.CacheDB (GenApproveKey contract state.From state.To) state.Value }⟩

/-! ## `grantOng` -/

/-- Modelled from the spec: `NativeService.NativeCall` (not in the source), the
cross-contract invoker of section 6.  A call of the method `approve` of the gas contract
runs the handler registered under that name, `GasApprove`, in a context whose contract
address is the callee and in which the witness check of the calling contract passes
(the re-approval is issued by the protocol, section 4.4 step 6); the context of the caller
is restored when the call returns. -/
def NativeCall (env : Env) (native : NativeService) (address : Address) (method : String)
    (args : Bytes) : Outcome :=
  if address = env.GasContractAddress ∧ method = "approve" then
    let r := GasApprove env
      { native with
        Input := args
        ContractAddress := address
        CheckWitness := fun a => decide (a = native.ContractAddress) || native.CheckWitness a }
    ⟨r.ret, r.err,
      { r.native with
        Input := native.Input
        ContractAddress := native.ContractAddress
        CheckWitness := native.CheckWitness }⟩
  else ⟨BYTE_FALSE, some Error.unknownMethod, native⟩

/-- The helper `getApproveArgs`: the approval `State{contract, address, value}` whose value
is increased by the stored allowance with the Go statement `approve.Value += stateValue`
on `uint64`, then serialised. -/
def getApproveArgs (env : Env) (native : NativeService) (contract ongContract address : Address)
    (value : Nat) : Bytes :=
  let approve : State := ⟨contract, address, value⟩
  let stateValue :=
    GetStorageUInt64 native.CacheDB (GenApproveKey ongContract approve.From approve.To)
  env.StateSerialization { approve with Value := (approve.Value + stateValue) % U64 }

/-- The function `grantOng`: the error it returns (`none` for `nil`) and the state it leaves. -/
def grantOng (env : Env) (native : NativeService) (contract address : Address) (balance : Nat) :
    Option Error × NativeService :=
  let startOffset := getUnboundOffset native.CacheDB contract address
  if native.Time ≤ env.GENESIS_BLOCK_TIMESTAMP then (none, native)
  else
    let endOffset := native.Time - env.GENESIS_BLOCK_TIMESTAMP
    if endOffset < startOffset then (some Error.wrongTimestamp, native)
    else if endOffset = startOffset then (none, native)
    else if balance ≠ 0 then
      let value := env.CalcUnbindOng balance startOffset endOffset
      let args := getApproveArgs env native contract env.GasContractAddress address value
      let r := NativeCall env native env.GasContractAddress "approve" args
      match r.err with
      | some e => (some e, r.native)
      | none =>
        (none,
          { r.native with
            CacheDB := Put r.native.CacheDB (genAddressUnboundOffsetKey contract address)
              endOffset })
    else
      (none,
        { native with
          CacheDB := Put native.CacheDB (genAddressUnboundOffsetKey contract address) endOffset })

/-! ## `GasTransfer` -/

/-- The triple `(fromBalance, toBalance, err)` that `Transfer` returns, with the state it
leaves. -/
structure Transferred where
  fromBalance : Nat
  toBalance : Nat
  err : Option Error
  native : NativeService

/-- Modelled from the spec: `Transfer` (declared in a file that is not in the source), the
ledger operation `transfer(contract, from, to, value)` of section 4.3: fails with
`InsufficientBalance` if the balance of `from` is below `value`; otherwise debits `from`,
credits `to` with checked addition, fails with `Overflow` if the credit would overflow;
persists both updated balance records and returns the two new balances.  The pair is
atomic: a failing transfer writes nothing. -/
def Transfer (native : NativeService) (contract : Address) (state : State) : Transferred :=
  let fromKey := GenBalanceKey contract state.From
  let toKey := GenBalanceKey contract state.To
  let fromBalance := GetStorageUInt64 native.CacheDB fromKey
  if fromBalance < state.Value then ⟨0, 0, some Error.insufficientBalance, native⟩
  else
    let debited := Put native.CacheDB fromKey (fromBalance - state.Value)
    let credit := SafeAdd (GetStorageUInt64 debited toKey) state.Value
    if credit.2 then ⟨0, 0, some Error.overflow, native⟩
    else
      ⟨fromBalance - state.Value, credit.1, none,
        { native with CacheDB := Put debited toKey credit.1 }⟩

/-- The loop `for _, v := range transfers.States` of `GasTransfer`. -/
def transferLoop (env : Env) (contract : Address) : NativeService → List State → Outcome
  | native, [] => ⟨BYTE_TRUE, none, native⟩
  | native, v :: rest =>
    if v.Value = 0 then transferLoop env contract native rest
    else if v.Value > GAS_TOTAL_SUPPLY then ⟨BYTE_FALSE, some Error.overTotalSupply, native⟩
    else
      let t := Transfer native contract v
      match t.err with
      | some e => ⟨BYTE_FALSE, some e, t.native⟩
      | none =>
        let g1 := grantOng env t.native contract v.From t.fromBalance
        match g1.1 with
        | some e => ⟨BYTE_FALSE, some e, g1.2⟩
        | none =>
          let g2 := grantOng env g1.2 contract v.To t.toBalance
          match g2.1 with
          | some e => ⟨BYTE_FALSE, some e, g2.2⟩
          | none => transferLoop env contract (AddNotifications g2.2 contract v) rest

/-- The handler `GasTransfer`. -/
def GasTransfer (env : Env) (native : NativeService) : Outcome :=
  match env.TransfersDeserialization native.Input with
  | none => ⟨BYTE_FALSE, some Error.deserialize, native⟩
  | some states => transferLoop env native.ContractAddress native states

/-! ## `GasTransferFrom` -/

/-- Modelled from the spec: `TransferedFrom` (declared in a file that is not in the source),
the ledger operation `transferFrom` of section 4.3: fails with `InsufficientAllowance` if
the allowance of the pair `(from, to)` is below `value`; otherwise decrements the allowance
and performs the same debit and credit as `Transfer`.  A failing operation writes
nothing. -/
def TransferedFrom (native : NativeService) (contract : Address) (state : TransferFrom) :
    Transferred :=
  let approveKey := GenApproveKey contract state.From state.To
  let allowance := GetStorageUInt64 native.CacheDB approveKey
  if allowance < state.Value then ⟨0, 0, some Error.insufficientAllowance, native⟩
  else
    let t := Transfer native contract ⟨state.From, state.To, state.Value⟩
    match t.err with
    | some e => ⟨0, 0, some e, native⟩
    | none =>
      ⟨t.fromBalance, t.toBalance, none,
        { t.native with CacheDB := Put t.native.CacheDB approveKey (allowance - state.Value) }⟩

/-- The handler `GasTransferFrom`. -/
def GasTransferFrom (env : Env) (native : NativeService) : Outcome :=
  match env.TransferFromDeserialization native.Input with
  | none => ⟨BYTE_FALSE, some Error.deserialize, native⟩
  | some state =>
    if state.Value = 0 then ⟨BYTE_FALSE, none, native⟩
    else if state.Value > GAS_TOTAL_SUPPLY then
      ⟨BYTE_FALSE, some Error.overTotalSupply, native⟩
    else
      let contract := native.ContractAddress
      let t := TransferedFrom native contract state
      match t.err with
      | some e => ⟨BYTE_FALSE, some e, t.native⟩
      | none =>
        let g1 := grantOng env t.native contract state.From t.fromBalance
        match g1.1 with
        | some e => ⟨BYTE_FALSE, some e, g1.2⟩
        | none =>
          let g2 := grantOng env g1.2 contract state.To t.toBalance
          match g2.1 with
          | some e => ⟨BYTE_FALSE, some e, g2.2⟩
          | none =>
            ⟨BYTE_TRUE, none,
              AddNotifications g2.2 contract ⟨state.From, state.To, state.Value⟩⟩

/-! ## Vocabulary of the statements -/

/-- The `n` pairs `(address, amount)` that the loop of `GasInit` decodes from `input`. -/
def readEntries (env : Env) : Nat → Bytes → Option (List (Address × Nat))
  | 0, _ => some []
  | n + 1, input =>
    match env.DecodeAddress input with
    | none => none
    | some (addr, input1) =>
      match env.DecodeVarUint input1 with
      | none => none
      | some (value, input2) =>
        match readEntries env n input2 with
        | none => none
        | some es => some ((addr, value) :: es)

/-- The distribution a well-formed init payload lists: a regular length-prefixed blob
holding a count and that many `(address, amount)` pairs; `none` for any other input. -/
def initPayload (env : Env) (input : Bytes) : Option (List (Address × Nat)) :=
  let vb := env.NextVarBytes input
  if vb.eof || vb.irregular then none
  else
    match env.DecodeVarUint vb.buf with
    | none => none
    | some (num, rest) => readEntries env num rest

/-- The sum of the amounts a distribution lists. -/
def totalOf (es : List (Address × Nat)) : Nat := (es.map Prod.snd).sum

/-- The sum of the amounts a distribution lists for the owner `a`. -/
def amountOf (es : List (Address × Nat)) (a : Address) : Nat :=
  totalOf (es.filter (fun e => e.1 = a))

/-- The owners a distribution lists, each once. -/
def ownersOf (es : List (Address × Nat)) : List Address := (es.map Prod.fst).dedup

/-- The balance of `owner` under `contract`, a missing record reading as zero. -/
def balanceOf (s : Store) (contract owner : Address) : Nat :=
  GetStorageUInt64 s (GenBalanceKey contract owner)

/-- The allowance `owner` grants `spender` under `contract`, a missing record reading as
zero. -/
def allowanceOf (s : Store) (contract owner spender : Address) : Nat :=
  GetStorageUInt64 s (GenApproveKey contract owner spender)

/-- The serialisers of `State` agree on the values `approve` accepts: a serialised state
whose value is at most `GAS_TOTAL_SUPPLY` deserialises to itself. -/
def Env.RoundTrip (env : Env) : Prop :=
  ∀ st : State, st.Value ≤ GAS_TOTAL_SUPPLY →
    env.StateDeserialization (env.StateSerialization st) = some st

/-! ## A sample environment

A small instance of `Env` on which the handlers can be evaluated: every value occupies one
cell of the input, a blob is prefixed by its length, a map is visited last entry first. -/

/-- A length-prefixed blob. -/
def sampleNextVarBytes : Bytes → VarBytes
  | [] => ⟨[], false, true⟩
  | n :: rest => if rest.length < n then ⟨[], false, true⟩ else ⟨rest.take n, false, false⟩

/-- One cell holding an unsigned 64-bit value. -/
def sampleDecodeVarUint : Bytes → Option (Nat × Bytes)
  | [] => none
  | b :: rest => if b < U64 then some (b, rest) else none

/-- One cell holding an address. -/
def sampleDecodeAddress : Bytes → Option (Address × Bytes)
  | [] => none
  | b :: rest => some (b, rest)

/-- Three cells `From`, `To`, `Value`. -/
def sampleStateDeserialization : Bytes → Option State
  | [f, t, v] => if v < U64 then some ⟨f, t, v⟩ else none
  | _ => none

/-- A sequence of states, three cells each. -/
def sampleTransfersDeserialization : Bytes → Option (List State)
  | [] => some []
  | f :: t :: v :: rest =>
    match sampleTransfersDeserialization rest with
    | none => none
    | some l => if v < U64 then some (⟨f, t, v⟩ :: l) else none
  | _ => none

/-- Three cells `From`, `To`, `Value` of a transfer-from request. -/
def sampleTransferFromDeserialization : Bytes → Option TransferFrom
  | [f, t, v] => if v < U64 then some ⟨f, t, v⟩ else none
  | _ => none

/-- The sample environment. -/
def sampleEnv : Env where
  GENESIS_BLOCK_TIMESTAMP := 1487808000
  GasContractAddress := 2
  CalcUnbindOng := fun balance startOffset endOffset => (balance * (endOffset - startOffset)) % U64
  NextVarBytes := sampleNextVarBytes
  DecodeVarUint := sampleDecodeVarUint
  DecodeAddress := sampleDecodeAddress
  StateDeserialization := sampleStateDeserialization
  StateSerialization := fun s => [s.From, s.To, s.Value]
  TransfersDeserialization := sampleTransfersDeserialization
  TransferFromDeserialization := sampleTransferFromDeserialization
  rangeOrder := List.reverse

/-- A service state over an empty store: input `input`, chain time `time`, running the
contract `contract`, every witness check passing. -/
def sampleNative (input : Bytes) (time : Nat) (contract : Address) : NativeService where
  CacheDB := fun _ => none
  Notifications := []
  Input := input
  Time := time
  ContractAddress := contract
  CheckWitness := fun _ => true

end Gas

/-! ## The genesis block (`core/genesis/genesis.go`) -/

namespace Genesis

/-- The constant `BlockVersion`. -/
def BlockVersion : Nat := 0

/-- The constant `GenesisNonce`. -/
def GenesisNonce : Nat := 2083236893

/-- A 256-bit hash (`common.Uint256`), represented by its numeric value; the zero value is
`common.Uint256{}`. -/
abbrev Uint256 := Nat

/-- A public key of a book-keeper (`crypto.PubKey`), a point given by its coordinates. -/
structure PubKey where
  X : Nat
  Y : Nat
  deriving DecidableEq, Repr

/-- The type of virtual machine a code runs on (`vmtypes.VmType`); the genesis
transactions use `NativeVM` only. -/
inductive VmType where
  | NativeVM
  deriving DecidableEq, Repr

/-- A code with the virtual machine it runs on (`vmtypes.VmCode`). -/
structure VmCode where
  VmType : VmType
  Code : List Nat
  deriving DecidableEq, Repr

/-- Modelled from the spec: a transaction (`types.Transaction`, whose declaration and
constructors `utils.NewDeployTransaction` and `utils.NewInvokeTransaction` are not in the
source), either the deployment of a code with its name, version, author, email,
description, virtual machine and storage flag, or the invocation of a code. -/
inductive Transaction where
  | deploy (code : List Nat) (name version author email description : String)
      (vmType : VmType) (needStorage : Bool)
  | invoke (vmCode : VmCode)
  deriving DecidableEq, Repr

/-- The constructor `utils.NewDeployTransaction`. -/
def NewDeployTransaction (code : List Nat) (name version author email description : String)
    (vmType : VmType) (needStorage : Bool) : Transaction :=
  Transaction.deploy code name version author email description vmType needStorage

/-- The constructor `utils.NewInvokeTransaction`. -/
def NewInvokeTransaction (vmCode : VmCode) : Transaction := Transaction.invoke vmCode

/-- The conversion `[]byte(s)` of a string of ASCII characters. -/
def bytesOf (s : String) : List Nat := s.toList.map Char.toNat

/-- The header of a block (`types.Header`), with the fields `GenesisBlockInit` sets. -/
structure Header where
  Version : Nat
  PrevBlockHash : Uint256
  TransactionsRoot : Uint256
  Timestamp : Nat
  Height : Nat
  ConsensusData : Nat
  NextBookKeeper : Gas.Address
  BookKeepers : List PubKey
  SigData : List (List Nat)
  deriving DecidableEq, Repr

/-- A block (`types.Block`): a header and a list of transactions. -/
structure Block where
  Header : Header
  Transactions : List Transaction
  deriving DecidableEq, Repr

/-- The number of days from 1970-01-01 to the day `d` of the month `m` of the year `y` of
the Gregorian calendar, for a date from 1970 on. -/
def daysFromEpoch (y m d : Nat) : Nat :=
  let y1 := if m ≤ 2 then y - 1 else y
  let era := y1 / 400
  let yoe := y1 - era * 400
  let mp := if m > 2 then m - 3 else m + 9
  let doy := (153 * mp + 2) / 5 + d - 1
  let doe := yoe * 365 + yoe / 4 - yoe / 100 + doy
  era * 146097 + doe - 719468

/-- The value `time.Date(y, m, d, hour, min, sec, 0, time.UTC).Unix()` of the Go standard
library, for a date from 1970 on: the seconds from 1970-01-01 00:00:00 UTC. -/
def dateUnix (y m d hour min sec : Nat) : Nat :=
  daysFromEpoch y m d * 86400 + hour * 3600 + min * 60 + sec

/-- The function `NewGoverningToken`. -/
def NewGoverningToken : Transaction :=
  NewDeployTransaction (bytesOf "ONT Token") "ONT" "1.0" "Ontology Team" "contact@ont.io"
    "Ontology Network ONT Token" VmType.NativeVM true

/-- The function `NewUtilityToken`. -/
def NewUtilityToken : Transaction :=
  NewDeployTransaction (bytesOf "ONT Token") "ONG" "1.0" "Ontology Team" "contact@ont.io"
    "Ontology Network ONG Token" VmType.NativeVM true

/-- The function `NewGoverningInit`. -/
def NewGoverningInit : Transaction :=
  NewInvokeTransaction
    ⟨VmType.NativeVM,
      [21, 67, 111, 109, 109, 111, 110, 46, 84, 111, 107, 101, 110, 46, 84, 114, 97, 110, 115,
        102, 101, 114]⟩

/-- The pair `(*types.Block, error)` that `GenesisBlockInit` returns, `none` for `nil`,
with the value it leaves in the package variable `GenesisBookKeepers`. -/
structure Built where
  block : Option Block
  err : Option String
  GenesisBookKeepers : List PubKey
  deriving DecidableEq, Repr

/-- The function `GenesisBlockInit`.  The derivation `types.AddressFromBookKeepers`, which
is not in the source, is the parameter `AddressFromBookKeepers`, `none` standing for an
error. -/
def GenesisBlockInit (AddressFromBookKeepers : List PubKey → Option Gas.Address)
    (defaultBookKeeper : List PubKey) : Built :=
  match AddressFromBookKeepers defaultBookKeeper with
  | none =>
    ⟨none, some "[Block],GenesisBlockInit err with GetBookKeeperAddress", defaultBookKeeper⟩
  | some nextBookKeeper =>
    let genesisHeader : Header :=
      { Version := BlockVersion
        PrevBlockHash := 0
        TransactionsRoot := 0
        Timestamp := dateUnix 2017 2 23 0 0 0 % 2 ^ 32
        Height := 0
        ConsensusData := GenesisNonce
        NextBookKeeper := nextBookKeeper
        BookKeepers := []
        SigData := [] }
    let ont := NewGoverningToken
    let ong := NewUtilityToken
    ⟨some { Header := genesisHeader, Transactions := [ont, ong, NewGoverningInit] }, none,
      defaultBookKeeper⟩

/-- A sample derivation of the next book-keeper address: it fails on the empty set, and
otherwise adds up the coordinates of the keys. -/
def sampleAddressFromBookKeepers : List PubKey → Option Gas.Address
  | [] => none
  | ks => some ((ks.map (fun k => k.X + k.Y)).sum)

end Genesis

/-! ## The parameters of the auth contract (`smartcontract/service/native/auth`) -/

namespace Auth

/-- The width of an address in bytes. -/
def ADDR_LEN : Nat := 20

/-- Modelled from the spec: the parameter `FuncsToRoleParam` of the auth contract (its
declaration is not in the source; the test `TestSerialization_AssignFuncs` builds it): a
contract address of fixed width, the admin id and the role as byte strings, and a sequence
of function names, each a string kept as its bytes. -/
structure FuncsToRoleParam where
  ContractAddr : List Nat
  AdminOntID : List Nat
  Role : List Nat
  FuncNames : List (List Nat)
  deriving DecidableEq, Repr

/-- The groups of seven bits of `n`, least significant first, each but the last with its top
bit set; `fuel + 1` bytes at most. -/
def encodeGroups : Nat → Nat → List Nat
  | 0, n => [n]
  | fuel + 1, n => if n < 128 then [n] else (n % 128 + 128) :: encodeGroups fuel (n / 128)

/-- Modelled from the spec: the writer of a variable-length unsigned integer (varint) of
section 6.  The spec does not fix the layout; this is the base-128 layout, ten bytes at
most for a `uint64`. -/
def EncodeVarUint (n : Nat) : List Nat := encodeGroups 9 n

/-- The value of a sequence of base-128 groups and the input that follows it; `none` when
the input ends inside the sequence. -/
def decodeGroups : List Nat → Option (Nat × List Nat)
  | [] => none
  | b :: rest =>
    if b < 128 then some (b, rest)
    else
      match decodeGroups rest with
      | none => none
      | some (m, rest1) => some (b - 128 + 128 * m, rest1)

/-- Modelled from the spec: the reader of a varint; a value outside the unsigned 64-bit
range is an error. -/
def DecodeVarUint (source : List Nat) : Option (Nat × List Nat) :=
  match decodeGroups source with
  | none => none
  | some (n, rest) => if n < 2 ^ 64 then some (n, rest) else none

/-- Modelled from the spec: the writer of a length-prefixed byte string. -/
def WriteVarBytes (data : List Nat) : List Nat := EncodeVarUint data.length ++ data

/-- Modelled from the spec: the reader of a length-prefixed byte string; a length beyond
the input is an error. -/
def NextVarBytes (source : List Nat) : Option (List Nat × List Nat) :=
  match DecodeVarUint source with
  | none => none
  | some (n, rest) => if rest.length < n then none else some (rest.take n, rest.drop n)

/-- Modelled from the spec: the reader of a fixed-width address. -/
def NextAddress (source : List Nat) : Option (List Nat × List Nat) :=
  if source.length < ADDR_LEN then none else some (source.take ADDR_LEN, source.drop ADDR_LEN)

/-- The elements of a sequence of strings, each length-prefixed, one after the other. -/
def writeStrings : List (List Nat) → List Nat
  | [] => []
  | fn :: rest => WriteVarBytes fn ++ writeStrings rest

/-- The reader of `n` length-prefixed strings. -/
def readStrings : Nat → List Nat → Option (List (List Nat) × List Nat)
  | 0, source => some ([], source)
  | n + 1, source =>
    match NextVarBytes source with
    | none => none
    | some (fn, rest) =>
      match readStrings n rest with
      | none => none
      | some (fns, rest1) => some (fn :: fns, rest1)

/-- Modelled from the spec: `FuncsToRoleParam.Serialization` (not in the source), with the
binary parameter codec of section 6: the address in its fixed width, the admin id and the
role as length-prefixed byte strings, and the function names as a varint count followed by
that many length-prefixed strings. -/
def FuncsToRoleParam.Serialization (param : FuncsToRoleParam) : List Nat :=
  param.ContractAddr ++ (WriteVarBytes param.AdminOntID ++ (WriteVarBytes param.Role ++
    (EncodeVarUint param.FuncNames.length ++ writeStrings param.FuncNames)))

/-- Modelled from the spec: `FuncsToRoleParam.Deserialization` (not in the source), the
reader of the same layout; `none` stands for an error. -/
def FuncsToRoleParam.Deserialization (source : List Nat) : Option FuncsToRoleParam :=
  match NextAddress source with
  | none => none
  | some (contractAddr, rest1) =>
    match NextVarBytes rest1 with
    | none => none
    | some (adminOntID, rest2) =>
      match NextVarBytes rest2 with
      | none => none
      | some (role, rest3) =>
        match DecodeVarUint rest3 with
        | none => none
        | some (fnLen, rest4) =>
          match readStrings fnLen rest4 with
          | none => none
          | some (funcNames, _) => some ⟨contractAddr, adminOntID, role, funcNames⟩

/-- The parameter of the test `TestSerialization_AssignFuncs`, for a sample address and
a sample admin id: the role `"role"` and the function names `"foo1"` and `"foo2"`. -/
def sampleParam : FuncsToRoleParam where
  ContractAddr := [0, 0, 0, 0, 0, 0, 0, 0, 0, 0, 0, 0, 0, 0, 0, 0, 0, 0, 0, 2]
  AdminOntID := [200, 17, 255, 3]
  Role := [114, 111, 108, 101]
  FuncNames := [[102, 111, 111, 49], [102, 111, 111, 50]]

end Auth

namespace Gas

/-! ## The store -/

theorem Put_same (s : Store) (k : Key) (v : Nat) : Put s k v k = some v := by
  simp [Put]

theorem Put_other (s : Store) (k k' : Key) (v : Nat) (h : k' ≠ k) : Put s k v k' = s k' := by
  simp [Put, h]

theorem U64_pos : 0 < U64 := by decide

theorem supply_lt_U64 : GAS_TOTAL_SUPPLY < U64 := by decide

theorem supply_pos : 0 < GAS_TOTAL_SUPPLY := by decide

/-! ## Distributions -/

theorem totalOf_nil : totalOf [] = 0 := rfl

theorem totalOf_cons (e : Address × Nat) (es : List (Address × Nat)) :
    totalOf (e :: es) = e.2 + totalOf es := by
  simp [totalOf]

theorem amountOf_nil (x : Address) : amountOf [] x = 0 := rfl

theorem amountOf_cons (e : Address × Nat) (es : List (Address × Nat)) (x : Address) :
    amountOf (e :: es) x = (if e.1 = x then e.2 else 0) + amountOf es x := by
  unfold amountOf
  by_cases h : e.1 = x
  · simp [List.filter_cons, h, totalOf_cons]
  · simp [List.filter_cons, h]

theorem amountOf_le_totalOf (es : List (Address × Nat)) (x : Address) :
    amountOf es x ≤ totalOf es := by
  induction es with
  | nil => simp [amountOf_nil, totalOf_nil]
  | cons e es ih =>
    rw [amountOf_cons, totalOf_cons]
    split_ifs <;> omega

theorem amountOf_eq_zero (es : List (Address × Nat)) (x : Address)
    (h : x ∉ es.map Prod.fst) : amountOf es x = 0 := by
  induction es with
  | nil => rfl
  | cons e es ih =>
    simp only [List.map_cons, List.mem_cons, not_or] at h
    rw [amountOf_cons, ih h.2, if_neg (fun h' => h.1 h'.symm)]

/-- In a distribution with one entry per owner, the amount of an owner is the value of its
entry. -/
theorem amountOf_of_mem (d : List (Address × Nat)) (hd : (d.map Prod.fst).Nodup)
    (a : Address) (v : Nat) (h : (a, v) ∈ d) : amountOf d a = v := by
  induction d with
  | nil => simp at h
  | cons e d ih =>
    simp only [List.map_cons, List.nodup_cons] at hd
    rw [amountOf_cons]
    rcases List.mem_cons.1 h with h | h
    · subst h
      simp [amountOf_eq_zero d a hd.1]
    · have hne : e.1 ≠ a := by
        intro he
        apply hd.1
        rw [he]
        exact List.mem_map_of_mem Prod.fst h
      rw [if_neg hne, ih hd.2 h, Nat.zero_add]

/-- Summing the per-owner amounts over the distinct owners gives the total of the
distribution. -/
theorem sum_amountOf_ownersOf (es : List (Address × Nat)) :
    ((ownersOf es).map (amountOf es)).sum = totalOf es := by
  induction es with
  | nil => rfl
  | cons e es ih =>
    have key : ∀ l : List Address, l.Nodup →
        (l.map (amountOf (e :: es))).sum
          = (if e.1 ∈ l then e.2 else 0) + (l.map (amountOf es)).sum := by
      intro l
      induction l with
      | nil => simp
      | cons y l ihl =>
        intro hl
        simp only [List.nodup_cons] at hl
        simp only [List.map_cons, List.sum_cons, ihl hl.2, amountOf_cons, List.mem_cons]
        by_cases h1 : e.1 = y
        · simp [h1, hl.1]
          omega
        · simp [h1]
          omega
    rw [totalOf_cons, ← ih]
    unfold ownersOf
    rw [List.map_cons]
    by_cases h : e.1 ∈ es.map Prod.fst
    · rw [List.dedup_cons_of_mem h, key _ (List.nodup_dedup _), if_pos (List.mem_dedup.2 h)]
    · rw [List.dedup_cons_of_not_mem h, key _ ((List.nodup_cons).2 ⟨by simpa using h, List.nodup_dedup _⟩)]
      simp [amountOf_eq_zero es e.1 h]

/-! ## The map `distribute` -/

theorem mem_keys_mapAdd (d : List (Address × Nat)) (a : Address) (v : Nat) (x : Address) :
    x ∈ (mapAdd d a v).map Prod.fst ↔ x = a ∨ x ∈ d.map Prod.fst := by
  induction d with
  | nil => simp [mapAdd]
  | cons e d ih =>
    obtain ⟨b, y⟩ := e
    by_cases h : b = a
    · subst h
      simp [mapAdd]
    · simp only [mapAdd, if_neg h, List.map_cons, List.mem_cons, ih]
      tauto

theorem nodup_keys_mapAdd (d : List (Address × Nat)) (a : Address) (v : Nat)
    (hd : (d.map Prod.fst).Nodup) : ((mapAdd d a v).map Prod.fst).Nodup := by
  induction d with
  | nil => simp [mapAdd]
  | cons e d ih =>
    obtain ⟨b, y⟩ := e
    simp only [List.map_cons, List.nodup_cons] at hd
    by_cases h : b = a
    · subst h
      simpa [mapAdd] using hd
    · simp only [mapAdd, if_neg h, List.map_cons, List.nodup_cons]
      refine ⟨?_, ih hd.2⟩
      rw [mem_keys_mapAdd]
      rintro (h' | h')
      · exact h h'
      · exact hd.1 h'

theorem totalOf_mapAdd (d : List (Address × Nat)) (a : Address) (v : Nat)
    (h : totalOf d + v < U64) : totalOf (mapAdd d a v) = totalOf d + v := by
  induction d with
  | nil =>
    simp only [totalOf_nil, Nat.zero_add] at h
    simp [mapAdd, totalOf_cons, totalOf_nil, Nat.mod_eq_of_lt h]
  | cons e d ih =>
    obtain ⟨b, y⟩ := e
    rw [totalOf_cons] at h
    by_cases hb : b = a
    · have hy : y + v < U64 := by simp only at h; omega
      simp only [mapAdd, if_pos hb, totalOf_cons, Nat.mod_eq_of_lt hy]
      omega
    · simp only [mapAdd, if_neg hb, totalOf_cons]
      rw [ih (by simp only at h; omega)]
      omega

theorem amountOf_mapAdd (d : List (Address × Nat)) (a : Address) (v : Nat) (x : Address)
    (h : totalOf d + v < U64) :
    amountOf (mapAdd d a v) x = amountOf d x + (if a = x then v else 0) := by
  induction d with
  | nil =>
    simp only [totalOf_nil, Nat.zero_add] at h
    simp [mapAdd, amountOf_cons, amountOf_nil, Nat.mod_eq_of_lt h]
  | cons e d ih =>
    obtain ⟨b, y⟩ := e
    rw [totalOf_cons] at h
    by_cases hb : b = a
    · have hy : y + v < U64 := by simp only at h; omega
      subst hb
      simp only [mapAdd, if_true, amountOf_cons, Nat.mod_eq_of_lt hy]
      split_ifs <;> omega
    · simp only [mapAdd, if_neg hb, amountOf_cons]
      rw [ih (by simp only at h; omega)]
      omega

theorem foldl_mapAdd_total (es d : List (Address × Nat))
    (h : totalOf d + totalOf es < U64) :
    totalOf (es.foldl (fun m e => mapAdd m e.1 e.2) d) = totalOf d + totalOf es := by
  induction es generalizing d with
  | nil => simp [totalOf_nil]
  | cons e es ih =>
    rw [totalOf_cons] at h
    rw [List.foldl_cons, ih, totalOf_mapAdd d e.1 e.2 (by omega), totalOf_cons]
    · omega
    · rw [totalOf_mapAdd d e.1 e.2 (by omega)]
      omega

theorem foldl_mapAdd_amount (es d : List (Address × Nat)) (x : Address)
    (h : totalOf d + totalOf es < U64) :
    amountOf (es.foldl (fun m e => mapAdd m e.1 e.2) d) x = amountOf d x + amountOf es x := by
  induction es generalizing d with
  | nil => simp [amountOf_nil]
  | cons e es ih =>
    rw [totalOf_cons] at h
    rw [List.foldl_cons, ih, amountOf_mapAdd d e.1 e.2 x (by omega), amountOf_cons]
    · omega
    · rw [totalOf_mapAdd d e.1 e.2 (by omega)]
      omega

theorem foldl_mapAdd_nodup (es d : List (Address × Nat)) (hd : (d.map Prod.fst).Nodup) :
    ((es.foldl (fun m e => mapAdd m e.1 e.2) d).map Prod.fst).Nodup := by
  induction es generalizing d with
  | nil => simpa using hd
  | cons e es ih =>
    rw [List.foldl_cons]
    exact ih _ (nodup_keys_mapAdd d e.1 e.2 hd)

theorem foldl_mapAdd_keys (es d : List (Address × Nat)) (x : Address) :
    x ∈ (es.foldl (fun m e => mapAdd m e.1 e.2) d).map Prod.fst
      ↔ x ∈ d.map Prod.fst ∨ x ∈ es.map Prod.fst := by
  induction es generalizing d with
  | nil => simp
  | cons e es ih =>
    rw [List.foldl_cons, ih, mem_keys_mapAdd, List.map_cons, List.mem_cons]
    tauto

/-! ## The loops of `GasInit` -/

/-- A run of the summing loop that ends normally has decoded `n` entries whose total,
added to `sum`, stays in range, and has accumulated them in `distribute`. -/
theorem initLoop_ok (env : Env) (n : Nat) (input : Bytes) (s : Nat) (d : List (Address × Nat))
    (s' : Nat) (d' : List (Address × Nat)) (hs : s < U64)
    (h : initLoop env n input s d = .ok (s', d')) :
    ∃ es, readEntries env n input = some es ∧ s' = s + totalOf es ∧ s + totalOf es < U64 ∧
      d' = es.foldl (fun m e => mapAdd m e.1 e.2) d := by
  induction n generalizing input s d with
  | zero =>
    simp only [initLoop, Except.ok.injEq, Prod.mk.injEq] at h
    exact ⟨[], rfl, by simp [totalOf_nil, h.1], by simpa [totalOf_nil] using hs, by simp [h.2]⟩
  | succ n ih =>
    simp only [initLoop] at h
    cases hA : env.DecodeAddress input with
    | none => simp [hA] at h
    | some p =>
      obtain ⟨addr, input1⟩ := p
      simp only [hA] at h
      cases hV : env.DecodeVarUint input1 with
      | none => simp [hV] at h
      | some q =>
        obtain ⟨value, input2⟩ := q
        simp only [hV] at h
        by_cases hov : U64 ≤ s + value
        · simp [SafeAdd, hov] at h
        · have hlt : s + value < U64 := Nat.lt_of_not_le hov
          simp only [SafeAdd, hov, decide_False, Bool.false_eq_true, if_false,
            Nat.mod_eq_of_lt hlt] at h
          obtain ⟨es, h1, h2, h3, h4⟩ := ih input2 (s + value) _ hlt h
          refine ⟨(addr, value) :: es, ?_, ?_, ?_, ?_⟩
          · simp [readEntries, hA, hV, h1]
          · rw [h2, totalOf_cons]; omega
          · rw [totalOf_cons]; simp only; omega
          · rw [h4, List.foldl_cons]

/-- On entries that decode and whose total, added to `sum`, stays in range, the summing
loop ends normally. -/
theorem initLoop_of_entries (env : Env) (n : Nat) (input : Bytes) (s : Nat)
    (d es : List (Address × Nat)) (he : readEntries env n input = some es)
    (hs : s + totalOf es < U64) :
    initLoop env n input s d
      = .ok (s + totalOf es, es.foldl (fun m e => mapAdd m e.1 e.2) d) := by
  induction n generalizing input s d es with
  | zero =>
    simp only [readEntries, Option.some.injEq] at he
    subst he
    simp [initLoop, totalOf_nil]
  | succ n ih =>
    simp only [readEntries] at he
    cases hA : env.DecodeAddress input with
    | none => simp [hA] at he
    | some p =>
      obtain ⟨addr, input1⟩ := p
      simp only [hA] at he
      cases hV : env.DecodeVarUint input1 with
      | none => simp [hV] at he
      | some q =>
        obtain ⟨value, input2⟩ := q
        simp only [hV] at he
        cases hR : readEntries env n input2 with
        | none => simp [hR] at he
        | some es' =>
          simp only [hR, Option.some.injEq] at he
          subst he
          rw [totalOf_cons] at hs
          simp only at hs
          have hlt : s + value < U64 := by omega
          have hov : ¬ U64 ≤ s + value := Nat.not_le_of_lt hlt
          simp only [initLoop, hA, hV, SafeAdd, hov, decide_False, Bool.false_eq_true, if_false,
            Nat.mod_eq_of_lt hlt]
          rw [ih input2 (s + value) _ es' hR (by omega), totalOf_cons, List.foldl_cons]
          simp only [Nat.add_assoc]

/-- When the first `m` entries decode and their total, added to `sum`, leaves the 64-bit
range, the summing loop stops with the overflow error. -/
theorem initLoop_overflow (env : Env) (m n : Nat) (input : Bytes) (s : Nat)
    (d es : List (Address × Nat)) (hmn : m ≤ n) (he : readEntries env m input = some es)
    (hs : s < U64) (hov : U64 ≤ s + totalOf es) :
    initLoop env n input s d = .error Error.configOverflow := by
  induction m generalizing n input s d es with
  | zero =>
    simp only [readEntries, Option.some.injEq] at he
    subst he
    simp only [totalOf_nil, Nat.add_zero] at hov
    omega
  | succ m ih =>
    obtain ⟨n, rfl⟩ : ∃ k, n = k + 1 := ⟨n - 1, by omega⟩
    simp only [readEntries] at he
    cases hA : env.DecodeAddress input with
    | none => simp [hA] at he
    | some p =>
      obtain ⟨addr, input1⟩ := p
      simp only [hA] at he
      cases hV : env.DecodeVarUint input1 with
      | none => simp [hV] at he
      | some q =>
        obtain ⟨value, input2⟩ := q
        simp only [hV] at he
        cases hR : readEntries env m input2 with
        | none => simp [hR] at he
        | some es' =>
          simp only [hR, Option.some.injEq] at he
          subst he
          rw [totalOf_cons] at hov
          simp only at hov
          by_cases hsv : U64 ≤ s + value
          · simp [initLoop, hA, hV, SafeAdd, hsv]
          · have hlt : s + value < U64 := Nat.lt_of_not_le hsv
            simp only [initLoop, hA, hV, SafeAdd, hsv, decide_False, Bool.false_eq_true,
              if_false, Nat.mod_eq_of_lt hlt]
            exact ih n input2 (s + value) _ es' (by omega) hR hlt (by omega)

/-- The distributing loop leaves every record it does not visit as it was. -/
theorem distributeLoop_frame (contract : Address) (it : List (Address × Nat))
    (native : NativeService) (k : Key) (h : ∀ e ∈ it, k ≠ GenBalanceKey contract e.1) :
    (distributeLoop contract native it).CacheDB k = native.CacheDB k := by
  induction it generalizing native with
  | nil => rfl
  | cons e it ih =>
    obtain ⟨a, v⟩ := e
    simp only [distributeLoop]
    rw [ih _ (fun e he => h e (List.mem_cons_of_mem _ he))]
    simp only [AddNotifications]
    exact Put_other _ _ _ _ (h (a, v) (List.mem_cons_self _ _))

/-- The distributing loop over entries with distinct owners writes each entry to the
balance record of its owner. -/
theorem distributeLoop_mem (contract : Address) (it : List (Address × Nat))
    (native : NativeService) (hit : (it.map Prod.fst).Nodup) (a : Address) (v : Nat)
    (h : (a, v) ∈ it) :
    (distributeLoop contract native it).CacheDB (GenBalanceKey contract a) = some v := by
  induction it generalizing native with
  | nil => simp at h
  | cons e it ih =>
    obtain ⟨b, y⟩ := e
    simp only [List.map_cons, List.nodup_cons] at hit
    simp only [distributeLoop]
    rcases List.mem_cons.1 h with h | h
    · simp only [Prod.mk.injEq] at h
      obtain ⟨rfl, rfl⟩ := h
      rw [distributeLoop_frame]
      · simp only [AddNotifications]
        exact Put_same _ _ _
      · intro e he hk
        simp only [GenBalanceKey, Key.balance.injEq, true_and] at hk
        apply hit.1
        rw [hk]
        exact List.mem_map_of_mem Prod.fst he
    · exact ih _ hit.2 h

/-! ## `GasInit` -/

/-- On a contract that is not initialised, `GasInit` on a payload that lists the
distribution `es` with a total in range compares the total with the fixed supply, and on
equality distributes the accumulated map and records the supply. -/
theorem GasInit_of_payload (env : Env) (native : NativeService) (es : List (Address × Nat))
    (hnew : GetStorageUInt64 native.CacheDB (GenTotalSupplyKey native.ContractAddress) = 0)
    (hp : initPayload env native.Input = some es) (hsum : totalOf es < U64) :
    GasInit env native =
      if totalOf es ≠ GAS_TOTAL_SUPPLY then ⟨BYTE_FALSE, some Error.supplyMismatch, native⟩
      else
        ⟨BYTE_TRUE, none,
          { distributeLoop native.ContractAddress native
              (env.rangeOrder (es.foldl (fun m e => mapAdd m e.1 e.2) [])) with
            CacheDB := Put
              (distributeLoop native.ContractAddress native
                (env.rangeOrder (es.foldl (fun m e => mapAdd m e.1 e.2) []))).CacheDB
              (GenTotalSupplyKey native.ContractAddress) GAS_TOTAL_SUPPLY }⟩ := by
  unfold initPayload at hp
  simp only at hp
  cases heof : (env.NextVarBytes native.Input).eof with
  | true => simp [heof] at hp
  | false =>
    cases hirr : (env.NextVarBytes native.Input).irregular with
    | true => simp [heof, hirr] at hp
    | false =>
      simp only [heof, hirr, Bool.or_self, Bool.false_eq_true, if_false] at hp
      cases hnum : env.DecodeVarUint (env.NextVarBytes native.Input).buf with
      | none => simp [hnum] at hp
      | some q =>
        obtain ⟨num, rest⟩ := q
        simp only [hnum] at hp
        have hloop := initLoop_of_entries env num rest 0 [] es hp (by omega)
        simp only [Nat.zero_add] at hloop
        simp only [GasInit, hnew, gt_iff_lt, Nat.lt_irrefl, if_false, heof, hirr,
          Bool.false_eq_true, hnum, hloop]

/-- A call of `GasInit` that returns `BYTE_TRUE` returns no error, and was made on a
contract that is not initialised, with a payload listing a distribution that sums to the
fixed supply. -/
theorem GasInit_accepts (env : Env) (native : NativeService)
    (hok : (GasInit env native).ret = BYTE_TRUE) :
    GetStorageUInt64 native.CacheDB (GenTotalSupplyKey native.ContractAddress) = 0 ∧
      ∃ es, initPayload env native.Input = some es ∧ totalOf es = GAS_TOTAL_SUPPLY := by
  unfold GasInit at hok
  simp only at hok
  by_cases hnew : GetStorageUInt64 native.CacheDB (GenTotalSupplyKey native.ContractAddress) > 0
  · simp [hnew, BYTE_FALSE, BYTE_TRUE] at hok
  · simp only [hnew, if_false] at hok
    refine ⟨by omega, ?_⟩
    cases heof : (env.NextVarBytes native.Input).eof with
    | true => simp [heof, BYTE_FALSE, BYTE_TRUE] at hok
    | false =>
      cases hirr : (env.NextVarBytes native.Input).irregular with
      | true => simp [heof, hirr, BYTE_FALSE, BYTE_TRUE] at hok
      | false =>
        simp only [heof, hirr, Bool.false_eq_true, if_false] at hok
        cases hnum : env.DecodeVarUint (env.NextVarBytes native.Input).buf with
        | none => simp [hnum, BYTE_FALSE, BYTE_TRUE] at hok
        | some q =>
          obtain ⟨num, rest⟩ := q
          simp only [hnum] at hok
          cases hloop : initLoop env num rest 0 [] with
          | error e => simp [hloop, BYTE_FALSE, BYTE_TRUE] at hok
          | ok r =>
            obtain ⟨sum, distribute⟩ := r
            simp only [hloop] at hok
            by_cases hsum : sum = GAS_TOTAL_SUPPLY
            · obtain ⟨es, h1, h2, _, _⟩ := initLoop_ok env num rest 0 [] sum distribute U64_pos hloop
              refine ⟨es, ?_, ?_⟩
              · simp [initPayload, heof, hirr, hnum, h1]
              · omega
            · simp [hsum, BYTE_FALSE, BYTE_TRUE] at hok

/-- A call of `GasInit` that returns no error either returned `BYTE_TRUE`, or was made on a
contract that is not initialised with an input that ends inside the parameter blob, and
returned `BYTE_FALSE` leaving the service state as it was. -/
theorem GasInit_no_error (env : Env) (native : NativeService)
    (hok : (GasInit env native).err = none) :
    (GasInit env native).ret = BYTE_TRUE ∨
      (GetStorageUInt64 native.CacheDB (GenTotalSupplyKey native.ContractAddress) = 0 ∧
        (env.NextVarBytes native.Input).eof = true ∧
        GasInit env native = ⟨BYTE_FALSE, none, native⟩) := by
  unfold GasInit at hok ⊢
  simp only at hok ⊢
  by_cases hnew : GetStorageUInt64 native.CacheDB (GenTotalSupplyKey native.ContractAddress) > 0
  · simp [hnew] at hok
  · simp only [hnew, if_false] at hok ⊢
    cases heof : (env.NextVarBytes native.Input).eof with
    | true =>
      right
      exact ⟨by omega, rfl, by simp⟩
    | false =>
      left
      cases hirr : (env.NextVarBytes native.Input).irregular with
      | true => simp [heof, hirr] at hok
      | false =>
        simp only [heof, hirr, Bool.false_eq_true, if_false] at hok ⊢
        cases hnum : env.DecodeVarUint (env.NextVarBytes native.Input).buf with
        | none => simp [hnum] at hok
        | some q =>
          obtain ⟨num, rest⟩ := q
          simp only [hnum] at hok ⊢
          cases hloop : initLoop env num rest 0 [] with
          | error e => simp [hloop] at hok
          | ok r =>
            obtain ⟨sum, distribute⟩ := r
            simp only [hloop] at hok ⊢
            by_cases hsum : sum = GAS_TOTAL_SUPPLY
            · simp [hsum]
            · simp [hsum] at hok

/-- C1: for every init payload that `GasInit` accepts, that is, answers with `BYTE_TRUE`, on
a store holding no balance record of the contract, whatever the order in which the Go map
is visited, the call returns no error, the total-supply record
afterwards is `GAS_TOTAL_SUPPLY`, the balance records of the contract are exactly those of
the distinct owners the payload lists, each holding the sum of all amounts listed for that
owner, and the sum of these balance records equals the total-supply record. -/
theorem GasInit_balances_sum_to_supply (env : Env) (native : NativeService)
    (hrange : ∀ m, (env.rangeOrder m).Perm m)
    (hfresh : ∀ a, native.CacheDB (GenBalanceKey native.ContractAddress a) = none)
    (hok : (GasInit env native).ret = BYTE_TRUE) :
    ∃ es, initPayload env native.Input = some es ∧
      (GasInit env native).err = none ∧
      (GasInit env native).native.CacheDB (GenTotalSupplyKey native.ContractAddress)
        = some GAS_TOTAL_SUPPLY ∧
      (∀ a, (GasInit env native).native.CacheDB (GenBalanceKey native.ContractAddress a)
        = if a ∈ ownersOf es then some (amountOf es a) else none) ∧
      ((ownersOf es).map
          (balanceOf (GasInit env native).native.CacheDB native.ContractAddress)).sum
        = GetStorageUInt64 (GasInit env native).native.CacheDB
            (GenTotalSupplyKey native.ContractAddress) := by
  obtain ⟨hnew, es, hp, htot⟩ := GasInit_accepts env native hok
  have hlt : totalOf es < U64 := by rw [htot]; exact supply_lt_U64
  have hrun := GasInit_of_payload env native es hnew hp hlt
  rw [if_neg (by simp [htot])] at hrun
  have hbal : ∀ a, (GasInit env native).native.CacheDB (GenBalanceKey native.ContractAddress a)
      = if a ∈ ownersOf es then some (amountOf es a) else none := by
    intro a
    rw [hrun]
    simp only
    rw [Put_other _ _ _ _ (by simp [GenBalanceKey, GenTotalSupplyKey])]
    have hnd : ((env.rangeOrder (es.foldl (fun m e => mapAdd m e.1 e.2) [])).map
        Prod.fst).Nodup :=
      ((hrange _).map Prod.fst).nodup_iff.2 (foldl_mapAdd_nodup es [] (by simp))
    by_cases ha : a ∈ ownersOf es
    · rw [if_pos ha]
      have hk : a ∈ (es.foldl (fun m e => mapAdd m e.1 e.2) []).map Prod.fst := by
        rw [foldl_mapAdd_keys]
        exact Or.inr (List.mem_dedup.1 ha)
      obtain ⟨e, he, rfl⟩ := List.mem_map.1 hk
      have hv : amountOf (es.foldl (fun m e => mapAdd m e.1 e.2) []) e.1 = e.2 :=
        amountOf_of_mem _ (foldl_mapAdd_nodup es [] (by simp)) e.1 e.2 he
      rw [foldl_mapAdd_amount es [] e.1 (by simpa [totalOf_nil] using hlt), amountOf_nil,
        Nat.zero_add] at hv
      rw [hv]
      exact distributeLoop_mem _ _ _ hnd e.1 e.2 ((hrange _).mem_iff.2 he)
    · rw [if_neg ha, distributeLoop_frame, hfresh]
      intro e he hk
      simp only [GenBalanceKey, Key.balance.injEq, true_and] at hk
      apply ha
      have hmem : e.1 ∈ (es.foldl (fun m e => mapAdd m e.1 e.2) []).map Prod.fst :=
        List.mem_map_of_mem Prod.fst ((hrange _).mem_iff.1 he)
      rw [foldl_mapAdd_keys] at hmem
      rcases hmem with hmem | hmem
      · simp at hmem
      · rw [hk]
        exact List.mem_dedup.2 hmem
  have hts : (GasInit env native).native.CacheDB (GenTotalSupplyKey native.ContractAddress)
      = some GAS_TOTAL_SUPPLY := by
    rw [hrun]
    exact Put_same _ _ _
  refine ⟨es, hp, by rw [hrun], hts, hbal, ?_⟩
  have hmap : (ownersOf es).map
      (balanceOf (GasInit env native).native.CacheDB native.ContractAddress)
      = (ownersOf es).map (amountOf es) := by
    apply List.map_congr_left
    intro a ha
    simp [balanceOf, GetStorageUInt64, hbal a, ha]
  rw [hmap, sum_amountOf_ownersOf, htot]
  simp [GetStorageUInt64, hts]

/-- C1, on the payload `{7: 700000000, 8: 200000000, 7: 100000000}` with the owner `7`
listed twice. -/
theorem GasInit_balances_sum_to_supply_witness :
    ∃ es, initPayload sampleEnv
        (sampleNative [7, 3, 7, 700000000, 8, 200000000, 7, 100000000] 0 1).Input = some es ∧
      (GasInit sampleEnv
          (sampleNative [7, 3, 7, 700000000, 8, 200000000, 7, 100000000] 0 1)).err = none ∧
      (GasInit sampleEnv
          (sampleNative [7, 3, 7, 700000000, 8, 200000000, 7, 100000000] 0 1)).native.CacheDB
          (GenTotalSupplyKey 1) = some GAS_TOTAL_SUPPLY ∧
      (∀ a, (GasInit sampleEnv
          (sampleNative [7, 3, 7, 700000000, 8, 200000000, 7, 100000000] 0 1)).native.CacheDB
          (GenBalanceKey 1 a) = if a ∈ ownersOf es then some (amountOf es a) else none) ∧
      ((ownersOf es).map
          (balanceOf (GasInit sampleEnv
            (sampleNative [7, 3, 7, 700000000, 8, 200000000, 7, 100000000] 0 1)).native.CacheDB
            1)).sum
        = GetStorageUInt64 (GasInit sampleEnv
            (sampleNative [7, 3, 7, 700000000, 8, 200000000, 7, 100000000] 0 1)).native.CacheDB
            (GenTotalSupplyKey 1) :=
  GasInit_balances_sum_to_supply sampleEnv
    (sampleNative [7, 3, 7, 700000000, 8, 200000000, 7, 100000000] 0 1)
    (fun m => List.reverse_perm m) (fun _ => rfl) (by decide)

/-- C2: `GasInit` succeeds once per contract.  After a call that succeeded, that is,
returned `BYTE_TRUE` (the one return that initialises; the return `BYTE_FALSE` with a nil
error on an input that ends inside the blob writes nothing and initialises nothing), every
call of `GasInit` on the same contract in a state whose total-supply record is still the
one that call wrote (no other handler writes it), whatever the input, the chain time and
the rest of the store, returns the error "Init has been completed!" with `BYTE_FALSE` and
leaves the service state, hence every balance record and the total-supply record,
unchanged. -/
theorem GasInit_only_once (env : Env) (native later : NativeService)
    (hok : (GasInit env native).ret = BYTE_TRUE)
    (hcontract : later.ContractAddress = native.ContractAddress)
    (hsupply : later.CacheDB (GenTotalSupplyKey native.ContractAddress)
      = (GasInit env native).native.CacheDB (GenTotalSupplyKey native.ContractAddress)) :
    (GasInit env later).err = some Error.initCompleted ∧
      (GasInit env later).ret = BYTE_FALSE ∧
      (GasInit env later).native = later := by
  obtain ⟨hnew, es, hp, htot⟩ := GasInit_accepts env native hok
  have hrun := GasInit_of_payload env native es hnew hp (by rw [htot]; exact supply_lt_U64)
  rw [if_neg (by simp [htot])] at hrun
  have hts : later.CacheDB (GenTotalSupplyKey later.ContractAddress)
      = some GAS_TOTAL_SUPPLY := by
    rw [hcontract, hsupply, hrun]
    exact Put_same _ _ _
  have hpos : GetStorageUInt64 later.CacheDB (GenTotalSupplyKey later.ContractAddress) > 0 := by
    simp [GetStorageUInt64, hts, supply_pos]
  simp [GasInit, hpos]

/-- C2, on the state a successful `GasInit` leaves, called again with another payload at a
later chain time. -/
theorem GasInit_only_once_witness :
    (GasInit sampleEnv (sampleNative [5, 2, 7, 700000000, 8, 300000000] 0 1)).ret
        = BYTE_TRUE ∧
      (GasInit sampleEnv
        { (GasInit sampleEnv (sampleNative [5, 2, 7, 700000000, 8, 300000000] 0 1)).native with
          Input := [3, 1, 9, 1000000000], Time := 5 }).err = some Error.initCompleted ∧
      (GasInit sampleEnv
        { (GasInit sampleEnv (sampleNative [5, 2, 7, 700000000, 8, 300000000] 0 1)).native with
          Input := [3, 1, 9, 1000000000], Time := 5 }).ret = BYTE_FALSE ∧
      (GasInit sampleEnv
        { (GasInit sampleEnv (sampleNative [5, 2, 7, 700000000, 8, 300000000] 0 1)).native with
          Input := [3, 1, 9, 1000000000], Time := 5 }).native
        = { (GasInit sampleEnv
              (sampleNative [5, 2, 7, 700000000, 8, 300000000] 0 1)).native with
            Input := [3, 1, 9, 1000000000], Time := 5 } :=
  ⟨by decide,
    GasInit_only_once sampleEnv (sampleNative [5, 2, 7, 700000000, 8, 300000000] 0 1)
      { (GasInit sampleEnv (sampleNative [5, 2, 7, 700000000, 8, 300000000] 0 1)).native with
        Input := [3, 1, 9, 1000000000], Time := 5 }
      (by decide) rfl rfl⟩

/-- C3 as stated fails: on the state a successful `GasInit` leaves, the well-formed payload
`{7: 700000000, 8: 300000001}`, whose amounts sum to a value other than `GAS_TOTAL_SUPPLY`,
is answered with the error "Init has been completed!", not with the supply-mismatch
error. -/
theorem GasInit_mismatch_when_initialised :
    initPayload sampleEnv [5, 2, 7, 700000000, 8, 300000001]
        = some [(7, 700000000), (8, 300000001)] ∧
      totalOf [(7, 700000000), (8, 300000001)] ≠ GAS_TOTAL_SUPPLY ∧
      (GasInit sampleEnv (sampleNative [5, 2, 7, 700000000, 8, 300000000] 0 1)).err = none ∧
      (GasInit sampleEnv
        { (GasInit sampleEnv (sampleNative [5, 2, 7, 700000000, 8, 300000000] 0 1)).native with
          Input := [5, 2, 7, 700000000, 8, 300000001] }).err = some Error.initCompleted ∧
      (GasInit sampleEnv
        { (GasInit sampleEnv (sampleNative [5, 2, 7, 700000000, 8, 300000000] 0 1)).native with
          Input := [5, 2, 7, 700000000, 8, 300000001] }).err ≠ some Error.supplyMismatch := by
  refine ⟨by decide, by decide, by decide, by decide, by decide⟩

/-- C3, amended: on a contract that is not yet initialised (its total-supply record reads
zero), for every well-formed init payload whose amounts sum, without overflow, to a value
other than `GAS_TOTAL_SUPPLY` (the empty distribution, of sum zero, is one), `GasInit`
returns the supply-mismatch error with `BYTE_FALSE` and leaves the service state as it was:
no balance record, no total-supply record and no notification is written. -/
theorem GasInit_supply_mismatch (env : Env) (native : NativeService)
    (es : List (Address × Nat))
    (hnew : GetStorageUInt64 native.CacheDB (GenTotalSupplyKey native.ContractAddress) = 0)
    (hp : initPayload env native.Input = some es) (hsum : totalOf es < U64)
    (hne : totalOf es ≠ GAS_TOTAL_SUPPLY) :
    (GasInit env native).err = some Error.supplyMismatch ∧
      (GasInit env native).ret = BYTE_FALSE ∧
      (GasInit env native).native = native := by
  rw [GasInit_of_payload env native es hnew hp hsum, if_pos hne]
  exact ⟨rfl, rfl, rfl⟩

/-- C3 amended, on the distribution `{7: 700000000, 8: 300000001}` of section 8 of the
spec. -/
theorem GasInit_supply_mismatch_witness :
    initPayload sampleEnv (sampleNative [5, 2, 7, 700000000, 8, 300000001] 0 1).Input
        = some [(7, 700000000), (8, 300000001)] ∧
      (GasInit sampleEnv (sampleNative [5, 2, 7, 700000000, 8, 300000001] 0 1)).err
        = some Error.supplyMismatch ∧
      (GasInit sampleEnv (sampleNative [5, 2, 7, 700000000, 8, 300000001] 0 1)).ret
        = BYTE_FALSE ∧
      (GasInit sampleEnv (sampleNative [5, 2, 7, 700000000, 8, 300000001] 0 1)).native
        = sampleNative [5, 2, 7, 700000000, 8, 300000001] 0 1 :=
  ⟨by decide,
    GasInit_supply_mismatch sampleEnv (sampleNative [5, 2, 7, 700000000, 8, 300000001] 0 1)
      [(7, 700000000), (8, 300000001)] rfl (by decide) (by decide) (by decide)⟩

/-- C9 as stated fails: on the state a successful `GasInit` leaves, the payload
`{7: 2^64 - 1, 8: 1000000001}`, whose running sum exceeds `2^64 - 1` at its second entry,
is answered with the error "Init has been completed!", not with the config-overflow
error. -/
theorem GasInit_overflow_when_initialised :
    initPayload sampleEnv [5, 2, 7, 18446744073709551615, 8, 1000000001]
        = some [(7, 18446744073709551615), (8, 1000000001)] ∧
      U64 ≤ totalOf [(7, 18446744073709551615), (8, 1000000001)] ∧
      (GasInit sampleEnv (sampleNative [5, 2, 7, 700000000, 8, 300000000] 0 1)).err = none ∧
      (GasInit sampleEnv
        { (GasInit sampleEnv (sampleNative [5, 2, 7, 700000000, 8, 300000000] 0 1)).native with
          Input := [5, 2, 7, 18446744073709551615, 8, 1000000001] }).err
        = some Error.initCompleted ∧
      (GasInit sampleEnv
        { (GasInit sampleEnv (sampleNative [5, 2, 7, 700000000, 8, 300000000] 0 1)).native with
          Input := [5, 2, 7, 18446744073709551615, 8, 1000000001] }).err
        ≠ some Error.configOverflow := by
  refine ⟨by decide, by decide, by decide, by decide, by decide⟩

/-- C9, amended: on a contract that is not yet initialised (its total-supply record reads
zero), for every init payload whose blob and count decode and whose first `m` entries
decode with a total above `2^64 - 1` (the running sum exceeds the range at one of them),
`GasInit` returns the config-overflow error with `BYTE_FALSE` and leaves the service state
as it was, whatever the total is modulo `2^64`. -/
theorem GasInit_config_overflow (env : Env) (native : NativeService) (num m : Nat)
    (rest : Bytes) (es : List (Address × Nat))
    (hnew : GetStorageUInt64 native.CacheDB (GenTotalSupplyKey native.ContractAddress) = 0)
    (heof : (env.NextVarBytes native.Input).eof = false)
    (hirr : (env.NextVarBytes native.Input).irregular = false)
    (hnum : env.DecodeVarUint (env.NextVarBytes native.Input).buf = some (num, rest))
    (hm : m ≤ num) (he : readEntries env m rest = some es) (hov : U64 ≤ totalOf es) :
    (GasInit env native).err = some Error.configOverflow ∧
      (GasInit env native).ret = BYTE_FALSE ∧
      (GasInit env native).native = native := by
  have hloop := initLoop_overflow env m num rest 0 [] es hm he U64_pos (by omega)
  simp [GasInit, hnew, heof, hirr, hnum, hloop]

/-- C9 amended, on the distribution `{7: 2^64 - 1, 8: 1000000001}`, whose total is `2^64`
more than the fixed supply. -/
theorem GasInit_config_overflow_witness :
    totalOf [(7, 18446744073709551615), (8, 1000000001)] % U64 = GAS_TOTAL_SUPPLY ∧
      (GasInit sampleEnv
        (sampleNative [5, 2, 7, 18446744073709551615, 8, 1000000001] 0 1)).err
        = some Error.configOverflow ∧
      (GasInit sampleEnv
        (sampleNative [5, 2, 7, 18446744073709551615, 8, 1000000001] 0 1)).ret = BYTE_FALSE ∧
      (GasInit sampleEnv
        (sampleNative [5, 2, 7, 18446744073709551615, 8, 1000000001] 0 1)).native
        = sampleNative [5, 2, 7, 18446744073709551615, 8, 1000000001] 0 1 :=
  ⟨by decide,
    GasInit_config_overflow sampleEnv
      (sampleNative [5, 2, 7, 18446744073709551615, 8, 1000000001] 0 1) 2 2
      [7, 18446744073709551615, 8, 1000000001] [(7, 18446744073709551615), (8, 1000000001)]
      rfl rfl rfl rfl (by decide) (by decide) (by decide)⟩

/-! ## `GasApprove` -/

/-- A call of `GasApprove` that returns an error leaves the service state as it was. -/
theorem GasApprove_error_unchanged (env : Env) (native : NativeService)
    (h : (GasApprove env native).err ≠ none) : (GasApprove env native).native = native := by
  unfold GasApprove at h ⊢
  cases hd : env.StateDeserialization native.Input with
  | none => rfl
  | some state =>
    simp only [hd] at h ⊢
    by_cases hv : state.Value > GAS_TOTAL_SUPPLY
    · simp [hv]
    · by_cases hw : native.CheckWitness state.From = false
      · simp [hv, hw]
      · simp [hv, hw] at h

/-- The handler `GasApprove` writes allowance records only, and leaves the notifications,
the chain time, the context and the input as they were. -/
theorem GasApprove_frame (env : Env) (native : NativeService) :
    (∀ k, (∀ c o p, k ≠ Key.approve c o p) →
        (GasApprove env native).native.CacheDB k = native.CacheDB k) ∧
      (GasApprove env native).native.Notifications = native.Notifications ∧
      (GasApprove env native).native.Time = native.Time ∧
      (GasApprove env native).native.ContractAddress = native.ContractAddress ∧
      (GasApprove env native).native.CheckWitness = native.CheckWitness ∧
      (GasApprove env native).native.Input = native.Input := by
  unfold GasApprove
  cases hd : env.StateDeserialization native.Input with
  | none => simp
  | some state =>
    simp only
    by_cases hv : state.Value > GAS_TOTAL_SUPPLY
    · simp [hv]
    · by_cases hw : native.CheckWitness state.From = false
      · simp [hv, hw]
      · have hw' : native.CheckWitness state.From = true := by simpa using hw
        simp only [hv, hw', if_false, Bool.true_eq_false, and_self, and_true]
        intro k hk
        exact Put_other _ _ _ _ (hk _ _ _)

/-- C5 as stated fails: an approval of the value `2^64 - 1`, above `GAS_TOTAL_SUPPLY`, by an
owner whose witness check passes is rejected, and no allowance record is written. -/
theorem GasApprove_rejects_value_over_supply :
    sampleEnv.StateDeserialization (sampleNative [7, 8, 18446744073709551615] 0 1).Input
        = some ⟨7, 8, 18446744073709551615⟩ ∧
      (sampleNative [7, 8, 18446744073709551615] 0 1).CheckWitness 7 = true ∧
      (GasApprove sampleEnv (sampleNative [7, 8, 18446744073709551615] 0 1)).err
        = some Error.overTotalSupply ∧
      (GasApprove sampleEnv (sampleNative [7, 8, 18446744073709551615] 0 1)).ret
        = BYTE_FALSE ∧
      (GasApprove sampleEnv (sampleNative [7, 8, 18446744073709551615] 0 1)).native.CacheDB
        (GenApproveKey 1 7 8) = none := by
  refine ⟨by decide, rfl, by decide, by decide, by decide⟩

/-- C5, amended: for every well-formed approve input `(from, to, value)` with
`value ≤ GAS_TOTAL_SUPPLY` and every prior store, if the witness check for `from` passes
then `GasApprove` succeeds with `BYTE_TRUE` and the allowance record of
`(contract, from, to)` afterwards is exactly `value`, whatever it was before; no other
record changes. -/
theorem GasApprove_overwrites (env : Env) (native : NativeService) (state : State)
    (hd : env.StateDeserialization native.Input = some state)
    (hv : state.Value ≤ GAS_TOTAL_SUPPLY)
    (hw : native.CheckWitness state.From = true) :
    (GasApprove env native).err = none ∧
      (GasApprove env native).ret = BYTE_TRUE ∧
      (GasApprove env native).native.CacheDB
        (GenApproveKey native.ContractAddress state.From state.To) = some state.Value ∧
      ∀ k, k ≠ GenApproveKey native.ContractAddress state.From state.To →
        (GasApprove env native).native.CacheDB k = native.CacheDB k := by
  have hv' : ¬ state.Value > GAS_TOTAL_SUPPLY := Nat.not_lt.2 hv
  simp only [GasApprove, hd, hv', hw, if_false, Bool.true_eq_false, true_and]
  exact ⟨Put_same _ _ _, fun k hk => Put_other _ _ _ _ hk⟩

/-- C5 amended, approving `5` over a prior allowance of `9`. -/
theorem GasApprove_overwrites_witness :
    ({ sampleNative [7, 8, 5] 0 1 with
        CacheDB := Put (fun _ => none) (GenApproveKey 1 7 8) 9 } : NativeService).CacheDB
        (GenApproveKey 1 7 8) = some 9 ∧
      (GasApprove sampleEnv { sampleNative [7, 8, 5] 0 1 with
        CacheDB := Put (fun _ => none) (GenApproveKey 1 7 8) 9 }).err = none ∧
      (GasApprove sampleEnv { sampleNative [7, 8, 5] 0 1 with
        CacheDB := Put (fun _ => none) (GenApproveKey 1 7 8) 9 }).ret = BYTE_TRUE ∧
      (GasApprove sampleEnv { sampleNative [7, 8, 5] 0 1 with
        CacheDB := Put (fun _ => none) (GenApproveKey 1 7 8) 9 }).native.CacheDB
        (GenApproveKey 1 7 8) = some 5 ∧
      ∀ k, k ≠ GenApproveKey 1 7 8 →
        (GasApprove sampleEnv { sampleNative [7, 8, 5] 0 1 with
          CacheDB := Put (fun _ => none) (GenApproveKey 1 7 8) 9 }).native.CacheDB k
          = ({ sampleNative [7, 8, 5] 0 1 with
              CacheDB := Put (fun _ => none) (GenApproveKey 1 7 8) 9 } : NativeService).CacheDB k :=
  ⟨by decide,
    GasApprove_overwrites sampleEnv
      { sampleNative [7, 8, 5] 0 1 with CacheDB := Put (fun _ => none) (GenApproveKey 1 7 8) 9 }
      ⟨7, 8, 5⟩ (by decide) (by decide) rfl⟩

/-- C6: for every approve input that deserialises to `(from, to, value)`, if the witness
check for `from` fails then `GasApprove` returns an error (the over-supply error when
`value > GAS_TOTAL_SUPPLY`, the authentication error otherwise) with `BYTE_FALSE` and
leaves the service state, hence the store and the allowance record of `(from, to)`, as it
was. -/
theorem GasApprove_unauthorized (env : Env) (native : NativeService) (state : State)
    (hd : env.StateDeserialization native.Input = some state)
    (hw : native.CheckWitness state.From = false) :
    (GasApprove env native).err
        = some (if state.Value > GAS_TOTAL_SUPPLY then Error.overTotalSupply
            else Error.authFailed) ∧
      (GasApprove env native).ret = BYTE_FALSE ∧
      (GasApprove env native).native = native := by
  by_cases hv : state.Value > GAS_TOTAL_SUPPLY
  · simp [GasApprove, hd, hv]
  · simp [GasApprove, hd, hv, hw]

/-- C6, on an approval of `5` by the owner `7` whose witness check fails, over a prior
allowance of `9`. -/
theorem GasApprove_unauthorized_witness :
    (GasApprove sampleEnv { sampleNative [7, 8, 5] 0 1 with
        CacheDB := Put (fun _ => none) (GenApproveKey 1 7 8) 9
        CheckWitness := fun a => decide (a ≠ 7) }).err
        = some (if (⟨7, 8, 5⟩ : State).Value > GAS_TOTAL_SUPPLY then Error.overTotalSupply
            else Error.authFailed) ∧
      (GasApprove sampleEnv { sampleNative [7, 8, 5] 0 1 with
        CacheDB := Put (fun _ => none) (GenApproveKey 1 7 8) 9
        CheckWitness := fun a => decide (a ≠ 7) }).ret = BYTE_FALSE ∧
      (GasApprove sampleEnv { sampleNative [7, 8, 5] 0 1 with
        CacheDB := Put (fun _ => none) (GenApproveKey 1 7 8) 9
        CheckWitness := fun a => decide (a ≠ 7) }).native
        = { sampleNative [7, 8, 5] 0 1 with
            CacheDB := Put (fun _ => none) (GenApproveKey 1 7 8) 9
            CheckWitness := fun a => decide (a ≠ 7) } :=
  GasApprove_unauthorized sampleEnv
    { sampleNative [7, 8, 5] 0 1 with
      CacheDB := Put (fun _ => none) (GenApproveKey 1 7 8) 9
      CheckWitness := fun a => decide (a ≠ 7) }
    ⟨7, 8, 5⟩ (by decide) (by decide)

/-! ## `grantOng` -/

/-- A cross-contract call writes allowance records only, and hands back the notifications,
the chain time, the context and the input of the caller. -/
theorem NativeCall_frame (env : Env) (native : NativeService) (address : Address)
    (method : String) (args : Bytes) :
    (∀ k, (∀ c o p, k ≠ Key.approve c o p) →
        (NativeCall env native address method args).native.CacheDB k = native.CacheDB k) ∧
      (NativeCall env native address method args).native.Notifications
        = native.Notifications ∧
      (NativeCall env native address method args).native.Time = native.Time ∧
      (NativeCall env native address method args).native.ContractAddress
        = native.ContractAddress ∧
      (NativeCall env native address method args).native.CheckWitness = native.CheckWitness ∧
      (NativeCall env native address method args).native.Input = native.Input := by
  unfold NativeCall
  by_cases h : address = env.GasContractAddress ∧ method = "approve"
  · rw [if_pos h]
    obtain ⟨h1, h2, h3, -, -, -⟩ := GasApprove_frame env
      { native with
        Input := args
        ContractAddress := address
        CheckWitness := fun a => decide (a = native.ContractAddress) || native.CheckWitness a }
    exact ⟨h1, h2, h3, rfl, rfl, rfl⟩
  · rw [if_neg h]
    simp

/-- The function `grantOng` writes allowance records and the checkpoint of its owner only,
and leaves the notifications, the chain time, the context and the input as they were. -/
theorem grantOng_frame (env : Env) (native : NativeService) (contract address : Address)
    (balance : Nat) :
    (∀ k, (∀ c o p, k ≠ Key.approve c o p) → k ≠ genAddressUnboundOffsetKey contract address →
        (grantOng env native contract address balance).2.CacheDB k = native.CacheDB k) ∧
      (grantOng env native contract address balance).2.Notifications = native.Notifications ∧
      (grantOng env native contract address balance).2.Time = native.Time ∧
      (grantOng env native contract address balance).2.ContractAddress
        = native.ContractAddress ∧
      (grantOng env native contract address balance).2.CheckWitness = native.CheckWitness ∧
      (grantOng env native contract address balance).2.Input = native.Input := by
  unfold grantOng
  simp only
  by_cases h1 : native.Time ≤ env.GENESIS_BLOCK_TIMESTAMP
  · simp [h1]
  · rw [if_neg h1]
    by_cases h2 : native.Time - env.GENESIS_BLOCK_TIMESTAMP
        < getUnboundOffset native.CacheDB contract address
    · simp [h2]
    · rw [if_neg h2]
      by_cases h3 : native.Time - env.GENESIS_BLOCK_TIMESTAMP
          = getUnboundOffset native.CacheDB contract address
      · simp [h3]
      · rw [if_neg h3]
        by_cases h4 : balance ≠ 0
        · rw [if_pos h4]
          obtain ⟨f1, f2, f3, f4, f5, f6⟩ := NativeCall_frame env native env.GasContractAddress
            "approve" (getApproveArgs env native contract env.GasContractAddress address
              (env.CalcUnbindOng balance (getUnboundOffset native.CacheDB contract address)
                (native.Time - env.GENESIS_BLOCK_TIMESTAMP)))
          split
          · exact ⟨fun k hk _ => f1 k hk, f2, f3, f4, f5, f6⟩
          · refine ⟨fun k hk hk' => ?_, f2, f3, f4, f5, f6⟩
            simp only
            rw [Put_other _ _ _ _ hk']
            exact f1 k hk
        · rw [if_neg h4]
          refine ⟨fun k _ hk' => ?_, rfl, rfl, rfl, rfl, rfl⟩
          exact Put_other _ _ _ _ hk'

/-- C10: the unbound-offset checkpoint of an owner never decreases: for every store, owner,
balance and chain time, if `grantOng` returns without error then the checkpoint of the
owner after the call is at least the checkpoint before it. -/
theorem grantOng_checkpoint_monotone (env : Env) (native : NativeService)
    (contract address : Address) (balance : Nat)
    (hok : (grantOng env native contract address balance).1 = none) :
    getUnboundOffset native.CacheDB contract address
      ≤ getUnboundOffset (grantOng env native contract address balance).2.CacheDB
          contract address := by
  unfold grantOng at hok ⊢
  simp only at hok ⊢
  by_cases h1 : native.Time ≤ env.GENESIS_BLOCK_TIMESTAMP
  · simp [h1]
  · rw [if_neg h1] at hok ⊢
    by_cases h2 : native.Time - env.GENESIS_BLOCK_TIMESTAMP
        < getUnboundOffset native.CacheDB contract address
    · simp [h2] at hok
    · rw [if_neg h2] at hok ⊢
      by_cases h3 : native.Time - env.GENESIS_BLOCK_TIMESTAMP
          = getUnboundOffset native.CacheDB contract address
      · simp [h3]
      · rw [if_neg h3] at hok ⊢
        have hput : ∀ s : Store, getUnboundOffset native.CacheDB contract address
            ≤ getUnboundOffset
                (Put s (genAddressUnboundOffsetKey contract address)
                  (native.Time - env.GENESIS_BLOCK_TIMESTAMP)) contract address := by
          intro s
          simp only [getUnboundOffset, Put_same, Option.getD_some]
          simp only [getUnboundOffset] at h2
          omega
        by_cases h4 : balance ≠ 0
        · rw [if_pos h4] at hok ⊢
          split at hok
          · simp at hok
          · rename_i hr
            simp only [hr]
            exact hput _
        · rw [if_neg h4]
          exact hput _

/-- C10, on an owner with balance `3` and checkpoint `0`, one second after genesis. -/
theorem grantOng_checkpoint_monotone_witness :
    (grantOng sampleEnv (sampleNative [] 1487808001 2) 2 7 3).1 = none ∧
      getUnboundOffset (grantOng sampleEnv (sampleNative [] 1487808001 2) 2 7 3).2.CacheDB 2 7
        = 1 ∧
      getUnboundOffset (sampleNative [] 1487808001 2).CacheDB 2 7
        ≤ getUnboundOffset (grantOng sampleEnv (sampleNative [] 1487808001 2) 2 7 3).2.CacheDB
            2 7 :=
  ⟨by decide, by decide,
    grantOng_checkpoint_monotone sampleEnv (sampleNative [] 1487808001 2) 2 7 3 (by decide)⟩

/-- The handler `GasApprove` has no overflow error. -/
theorem GasApprove_no_overflow_error (env : Env) (native : NativeService) :
    (GasApprove env native).err ≠ some Error.overflow := by
  unfold GasApprove
  cases env.StateDeserialization native.Input with
  | none => simp
  | some state =>
    simp only
    split_ifs <;> simp

/-- The function `grantOng` has no overflow error: whatever the store, the owner, the
balance and the chain time, the error it returns is not an overflow error. -/
theorem grantOng_no_overflow_error (env : Env) (native : NativeService)
    (contract address : Address) (balance : Nat) :
    (grantOng env native contract address balance).1 ≠ some Error.overflow := by
  have hcall : ∀ args, (NativeCall env native env.GasContractAddress "approve" args).err
      ≠ some Error.overflow := by
    intro args
    unfold NativeCall
    split_ifs
    · exact GasApprove_no_overflow_error env _
    · simp
  unfold grantOng
  simp only
  split_ifs
  · simp
  · simp
  · simp
  · split
    · rename_i e he
      intro h
      simp only [Option.some.injEq] at h
      rw [h] at he
      exact hcall _ he
    · simp
  · simp

/-- What `grantOng` does for a non-zero balance once time has advanced past the
checkpoint, when it is called for the running contract: the allowance submitted to
`approve` is the stored allowance plus the computed value reduced modulo `2^64`; when that
is at most `GAS_TOTAL_SUPPLY` it is written, followed by the new checkpoint. -/
theorem grantOng_reapproves (env : Env) (native : NativeService) (contract address : Address)
    (balance : Nat) (hrt : env.RoundTrip) (hself : native.ContractAddress = contract)
    (htime : env.GENESIS_BLOCK_TIMESTAMP < native.Time)
    (hadv : getUnboundOffset native.CacheDB contract address
      < native.Time - env.GENESIS_BLOCK_TIMESTAMP)
    (hbal : balance ≠ 0)
    (hcap : (env.CalcUnbindOng balance (getUnboundOffset native.CacheDB contract address)
          (native.Time - env.GENESIS_BLOCK_TIMESTAMP)
        + allowanceOf native.CacheDB env.GasContractAddress contract address) % U64
      ≤ GAS_TOTAL_SUPPLY) :
    grantOng env native contract address balance =
      (none,
        { native with
          CacheDB := Put
            (Put native.CacheDB (GenApproveKey env.GasContractAddress contract address)
              ((env.CalcUnbindOng balance (getUnboundOffset native.CacheDB contract address)
                  (native.Time - env.GENESIS_BLOCK_TIMESTAMP)
                + allowanceOf native.CacheDB env.GasContractAddress contract address) % U64))
            (genAddressUnboundOffsetKey contract address)
            (native.Time - env.GENESIS_BLOCK_TIMESTAMP) }) := by
  have h1 : ¬ native.Time ≤ env.GENESIS_BLOCK_TIMESTAMP := Nat.not_le.2 htime
  have h2 : ¬ native.Time - env.GENESIS_BLOCK_TIMESTAMP
      < getUnboundOffset native.CacheDB contract address := by omega
  have h3 : ¬ native.Time - env.GENESIS_BLOCK_TIMESTAMP
      = getUnboundOffset native.CacheDB contract address := by omega
  have hdec := hrt ⟨contract, address,
    (env.CalcUnbindOng balance (getUnboundOffset native.CacheDB contract address)
        (native.Time - env.GENESIS_BLOCK_TIMESTAMP)
      + allowanceOf native.CacheDB env.GasContractAddress contract address) % U64⟩ hcap
  have hcap' := Nat.not_lt.2 hcap
  unfold grantOng
  simp only [h1, h2, h3, hbal, if_false, ne_eq, not_false_eq_true, if_true, NativeCall, and_self,
    getApproveArgs, GasApprove]
  simp only [allowanceOf] at hdec hcap' ⊢
  rw [hdec]
  simp [hcap', hself]

theorem sampleEnv_roundTrip : sampleEnv.RoundTrip := by
  intro st hst
  have hlt : st.Value < U64 := Nat.lt_of_le_of_lt hst supply_lt_U64
  simp [sampleEnv, sampleStateDeserialization, hlt]

/-- C4 as stated fails.  First, on a store written by `GasApprove` (an allowance of `5`) and
an unbinding calculator that returns `2^64 - 1`: the sum exceeds `2^64 - 1`, `grantOng`
returns no error, and the allowance becomes the wrapped sum `4`.  Second, on a store whose
allowance record holds `2^64 - 1` and a computed value of `1`: no error, and the allowance
becomes `0`. -/
theorem grantOng_submits_wrapped_allowance :
    (GasApprove sampleEnv (sampleNative [2, 7, 5] 1487808001 2)).err = none ∧
      allowanceOf (GasApprove sampleEnv (sampleNative [2, 7, 5] 1487808001 2)).native.CacheDB
        2 2 7 = 5 ∧
      U64 ≤ 5 + 18446744073709551615 ∧
      (grantOng { sampleEnv with CalcUnbindOng := fun _ _ _ => 18446744073709551615 }
        (GasApprove sampleEnv (sampleNative [2, 7, 5] 1487808001 2)).native 2 7 1).1 = none ∧
      allowanceOf
        (grantOng { sampleEnv with CalcUnbindOng := fun _ _ _ => 18446744073709551615 }
          (GasApprove sampleEnv (sampleNative [2, 7, 5] 1487808001 2)).native 2 7 1).2.CacheDB
        2 2 7 = 4 ∧
      sampleEnv.CalcUnbindOng 1 0 1 = 1 ∧
      (grantOng sampleEnv { sampleNative [] 1487808001 2 with
        CacheDB := Put (fun _ => none) (GenApproveKey 2 2 7) 18446744073709551615 } 2 7 1).1
        = none ∧
      allowanceOf (grantOng sampleEnv { sampleNative [] 1487808001 2 with
        CacheDB := Put (fun _ => none) (GenApproveKey 2 2 7) 18446744073709551615 }
          2 7 1).2.CacheDB 2 2 7 = 0 := by
  refine ⟨by decide, by decide, by decide, by decide, by decide, by decide, by decide,
    by decide⟩

/-- C4, amended: in `grantOng`, when the balance of the owner is non-zero and time has
advanced past the checkpoint, the re-approved allowance is the current allowance plus the
computed value under unchecked 64-bit addition.  `grantOng` has no overflow error; for
every store, also one in which the current allowance plus the value exceeds `2^64 - 1`,
the sum reduced modulo `2^64` is what is submitted to `approve`, and when that is at most
`GAS_TOTAL_SUPPLY` it becomes the allowance and `grantOng` returns no error. -/
theorem grantOng_reapproval_unchecked (env : Env) (native : NativeService)
    (contract address : Address) (balance : Nat) :
    (grantOng env native contract address balance).1 ≠ some Error.overflow ∧
      (env.RoundTrip → native.ContractAddress = contract →
        env.GENESIS_BLOCK_TIMESTAMP < native.Time →
        getUnboundOffset native.CacheDB contract address
          < native.Time - env.GENESIS_BLOCK_TIMESTAMP →
        balance ≠ 0 →
        (allowanceOf native.CacheDB env.GasContractAddress contract address
          + env.CalcUnbindOng balance (getUnboundOffset native.CacheDB contract address)
              (native.Time - env.GENESIS_BLOCK_TIMESTAMP)) % U64 ≤ GAS_TOTAL_SUPPLY →
        (grantOng env native contract address balance).1 = none ∧
          allowanceOf (grantOng env native contract address balance).2.CacheDB
              env.GasContractAddress contract address
            = (allowanceOf native.CacheDB env.GasContractAddress contract address
              + env.CalcUnbindOng balance (getUnboundOffset native.CacheDB contract address)
                  (native.Time - env.GENESIS_BLOCK_TIMESTAMP)) % U64) := by
  refine ⟨grantOng_no_overflow_error env native contract address balance, ?_⟩
  intro hrt hself htime hadv hbal hcap
  rw [Nat.add_comm] at hcap
  have hrun := grantOng_reapproves env native contract address balance hrt hself htime hadv
    hbal hcap
  refine ⟨by rw [hrun], ?_⟩
  rw [hrun, Nat.add_comm]
  simp only [allowanceOf, GetStorageUInt64]
  rw [Put_other _ _ _ _ (by simp [GenApproveKey, genAddressUnboundOffsetKey]), Put_same]
  rfl

/-- C4 amended, on a store written by `GasApprove` (an allowance of `5`), for an owner with
balance `3` one second after genesis: the computed value is `3` and the allowance becomes
`8`. -/
theorem grantOng_reapproval_unchecked_witness :
    allowanceOf (GasApprove sampleEnv (sampleNative [2, 7, 5] 1487808001 2)).native.CacheDB
        2 2 7 = 5 ∧
      sampleEnv.CalcUnbindOng 3 0 1 = 3 ∧
      (grantOng sampleEnv (GasApprove sampleEnv (sampleNative [2, 7, 5] 1487808001 2)).native
        2 7 3).1 ≠ some Error.overflow ∧
      (grantOng sampleEnv (GasApprove sampleEnv (sampleNative [2, 7, 5] 1487808001 2)).native
        2 7 3).1 = none ∧
      allowanceOf
        (grantOng sampleEnv (GasApprove sampleEnv (sampleNative [2, 7, 5] 1487808001 2)).native
          2 7 3).2.CacheDB 2 2 7 = 8 :=
  ⟨by decide, by decide,
    (grantOng_reapproval_unchecked sampleEnv
      (GasApprove sampleEnv (sampleNative [2, 7, 5] 1487808001 2)).native 2 7 3).1,
    ((grantOng_reapproval_unchecked sampleEnv
      (GasApprove sampleEnv (sampleNative [2, 7, 5] 1487808001 2)).native 2 7 3).2
      sampleEnv_roundTrip rfl (by decide) (by decide) (by decide) (by decide)).1,
    ((grantOng_reapproval_unchecked sampleEnv
      (GasApprove sampleEnv (sampleNative [2, 7, 5] 1487808001 2)).native 2 7 3).2
      sampleEnv_roundTrip rfl (by decide) (by decide) (by decide) (by decide)).2⟩

/-! ## `GasTransfer` -/

/-- A transfer that fails writes nothing. -/
theorem Transfer_error_unchanged (native : NativeService) (contract : Address) (state : State)
    (h : (Transfer native contract state).err ≠ none) :
    (Transfer native contract state).native = native := by
  unfold Transfer at h ⊢
  simp only at h ⊢
  split_ifs at h ⊢ <;> simp_all

/-- A transfer of more than the balance of `from` fails with the insufficient-balance
error. -/
theorem Transfer_insufficient (native : NativeService) (contract : Address) (state : State)
    (h : balanceOf native.CacheDB contract state.From < state.Value) :
    (Transfer native contract state).err = some Error.insufficientBalance ∧
      (Transfer native contract state).native = native := by
  unfold balanceOf at h
  simp [Transfer, h]

/-- The balances a successful transfer leaves: the balance of `to` is credited, that of
`from` debited, no other balance changes, and the debit was covered. -/
theorem Transfer_balance (native : NativeService) (contract : Address) (state : State)
    (h : (Transfer native contract state).err = none) (z : Address) :
    state.Value ≤ balanceOf native.CacheDB contract state.From ∧
      balanceOf (Transfer native contract state).native.CacheDB contract z =
        if z = state.To then
          (if state.To = state.From then balanceOf native.CacheDB contract state.From
            else balanceOf native.CacheDB contract state.To + state.Value)
        else if z = state.From then balanceOf native.CacheDB contract state.From - state.Value
        else balanceOf native.CacheDB contract z := by
  unfold Transfer at h ⊢
  simp only at h ⊢
  by_cases h1 : GetStorageUInt64 native.CacheDB (GenBalanceKey contract state.From) < state.Value
  · simp [h1] at h
  · rw [if_neg h1] at h ⊢
    have hle : state.Value ≤ balanceOf native.CacheDB contract state.From := Nat.not_lt.1 h1
    refine ⟨hle, ?_⟩
    by_cases h2 : (SafeAdd (GetStorageUInt64
        (Put native.CacheDB (GenBalanceKey contract state.From)
          (GetStorageUInt64 native.CacheDB (GenBalanceKey contract state.From) - state.Value))
        (GenBalanceKey contract state.To)) state.Value).2 = true
    · simp [h2] at h
    · rw [if_neg h2]
      simp only [SafeAdd, decide_eq_true_eq, not_le] at h2
      simp only [SafeAdd, Nat.mod_eq_of_lt h2, balanceOf]
      unfold balanceOf at hle
      by_cases hz : z = state.To
      · subst hz
        rw [if_pos rfl]
        simp only [GetStorageUInt64, Put_same, Option.getD_some]
        by_cases hft : state.To = state.From
        · rw [if_pos hft, hft]
          simp only [Put_same, Option.getD_some]
          simp only [GetStorageUInt64] at hle
          omega
        · rw [if_neg hft]
          rw [Put_other _ _ _ _ (by simpa [GenBalanceKey] using hft)]
      · rw [if_neg hz]
        simp only [GetStorageUInt64]
        rw [Put_other _ _ _ _ (by simpa [GenBalanceKey] using hz)]
        by_cases hzf : z = state.From
        · rw [if_pos hzf, hzf, Put_same]
          rfl
        · rw [if_neg hzf, Put_other _ _ _ _ (by simpa [GenBalanceKey] using hzf)]

/-- A successful transfer conserves the joint balance of two accounts `x` and `y` when it
moves value between them or between accounts other than them. -/
theorem Transfer_pair (native : NativeService) (contract : Address) (state : State)
    (x y : Address) (h : (Transfer native contract state).err = none)
    (hxy : (state.From = x ∨ state.From = y) ↔ (state.To = x ∨ state.To = y)) :
    balanceOf (Transfer native contract state).native.CacheDB contract x
        + balanceOf (Transfer native contract state).native.CacheDB contract y
      = balanceOf native.CacheDB contract x + balanceOf native.CacheDB contract y := by
  obtain ⟨hle, hx⟩ := Transfer_balance native contract state h x
  obtain ⟨-, hy⟩ := Transfer_balance native contract state h y
  rw [hx, hy]
  clear hx hy h
  obtain ⟨f, t, v⟩ := state
  delta Address at *
  simp only at *
  split_ifs <;> subst_vars <;> omega

/-- The function `grantOng` leaves every balance record as it was. -/
theorem balanceOf_grantOng (env : Env) (native : NativeService) (contract address : Address)
    (balance : Nat) (c z : Address) :
    balanceOf (grantOng env native contract address balance).2.CacheDB c z
      = balanceOf native.CacheDB c z := by
  unfold balanceOf GetStorageUInt64
  rw [(grantOng_frame env native contract address balance).1 (GenBalanceKey c z)
    (by simp [GenBalanceKey]) (by simp [GenBalanceKey, genAddressUnboundOffsetKey])]

/-- The transfer loop skips a state of value zero. -/
theorem transferLoop_zero (env : Env) (contract : Address) (native : NativeService)
    (v : State) (l : List State) (hz : v.Value = 0) :
    transferLoop env contract native (v :: l) = transferLoop env contract native l := by
  simp only [transferLoop, if_pos hz]

/-- The transfer loop on a non-zero state within the supply whose transfer and two grants
succeed notifies the transfer and carries on with the states that remain. -/
theorem transferLoop_step (env : Env) (contract : Address) (native : NativeService)
    (v : State) (l : List State) (hz : v.Value ≠ 0) (hT : ¬ v.Value > GAS_TOTAL_SUPPLY)
    (hte : (Transfer native contract v).err = none)
    (hg1 : (grantOng env (Transfer native contract v).native contract v.From
      (Transfer native contract v).fromBalance).1 = none)
    (hg2 : (grantOng env
      (grantOng env (Transfer native contract v).native contract v.From
        (Transfer native contract v).fromBalance).2 contract v.To
      (Transfer native contract v).toBalance).1 = none) :
    transferLoop env contract native (v :: l)
      = transferLoop env contract
          (AddNotifications
            (grantOng env
              (grantOng env (Transfer native contract v).native contract v.From
                (Transfer native contract v).fromBalance).2 contract v.To
              (Transfer native contract v).toBalance).2 contract v) l := by
  simp only [transferLoop, if_neg hz, if_neg hT, hte, hg1, hg2]

/-- When the transfer loop ends normally, its first state had value zero, or was within the
supply and its transfer and two grants succeeded. -/
theorem transferLoop_cons_ok (env : Env) (contract : Address) (native : NativeService)
    (v : State) (l : List State)
    (hok : (transferLoop env contract native (v :: l)).err = none) :
    v.Value = 0 ∨
      (v.Value ≠ 0 ∧ ¬ v.Value > GAS_TOTAL_SUPPLY ∧
        (Transfer native contract v).err = none ∧
        (grantOng env (Transfer native contract v).native contract v.From
          (Transfer native contract v).fromBalance).1 = none ∧
        (grantOng env
          (grantOng env (Transfer native contract v).native contract v.From
            (Transfer native contract v).fromBalance).2 contract v.To
          (Transfer native contract v).toBalance).1 = none) := by
  by_cases hz : v.Value = 0
  · exact Or.inl hz
  · refine Or.inr ⟨hz, ?_⟩
    simp only [transferLoop, if_neg hz] at hok
    by_cases hT : v.Value > GAS_TOTAL_SUPPLY
    · simp [if_pos hT] at hok
    · simp only [if_neg hT] at hok
      refine ⟨hT, ?_⟩
      cases hte : (Transfer native contract v).err with
      | some e => simp [hte] at hok
      | none =>
        simp only [hte] at hok
        cases hg1 : (grantOng env (Transfer native contract v).native contract v.From
            (Transfer native contract v).fromBalance).1 with
        | some e => simp [hg1] at hok
        | none =>
          simp only [hg1] at hok
          cases hg2 : (grantOng env
              (grantOng env (Transfer native contract v).native contract v.From
                (Transfer native contract v).fromBalance).2 contract v.To
              (Transfer native contract v).toBalance).1 with
          | some e => simp [hg2] at hok
          | none => exact ⟨rfl, rfl, rfl⟩

/-- The transfer loop conserves the joint balance of two accounts `x` and `y` when it ends
normally and each of its non-zero states moves value between `x` and `y` or between
accounts other than them. -/
theorem transferLoop_pair (env : Env) (contract x y : Address) (states : List State)
    (native : NativeService)
    (hok : (transferLoop env contract native states).err = none)
    (hclosed : ∀ w ∈ states, w.Value ≠ 0 →
      ((w.From = x ∨ w.From = y) ↔ (w.To = x ∨ w.To = y))) :
    balanceOf (transferLoop env contract native states).native.CacheDB contract x
        + balanceOf (transferLoop env contract native states).native.CacheDB contract y
      = balanceOf native.CacheDB contract x + balanceOf native.CacheDB contract y := by
  induction states generalizing native with
  | nil => rfl
  | cons v rest ih =>
    have hrest : ∀ w ∈ rest, w.Value ≠ 0 →
        ((w.From = x ∨ w.From = y) ↔ (w.To = x ∨ w.To = y)) :=
      fun w hw => hclosed w (List.mem_cons_of_mem _ hw)
    rcases transferLoop_cons_ok env contract native v rest hok with hz | ⟨hz, hT, hte, hg1, hg2⟩
    · rw [transferLoop_zero env contract native v rest hz] at hok ⊢
      exact ih native hok hrest
    · rw [transferLoop_step env contract native v rest hz hT hte hg1 hg2] at hok ⊢
      rw [ih _ hok hrest]
      simp only [AddNotifications]
      rw [balanceOf_grantOng, balanceOf_grantOng, balanceOf_grantOng, balanceOf_grantOng]
      exact Transfer_pair native contract v x y hte (hclosed v (List.mem_cons_self _ _) hz)

/-- The transfer loop on a sequence of states runs its first part, and when that ends
normally carries on with the rest from the state the first part leaves. -/
theorem transferLoop_append (env : Env) (contract : Address) (pre post : List State)
    (native : NativeService)
    (hok : (transferLoop env contract native pre).err = none) :
    transferLoop env contract native (pre ++ post)
      = transferLoop env contract (transferLoop env contract native pre).native post := by
  induction pre generalizing native with
  | nil => rfl
  | cons v rest ih =>
    rw [List.cons_append]
    rcases transferLoop_cons_ok env contract native v rest hok with hz | ⟨hz, hT, hte, hg1, hg2⟩
    · rw [transferLoop_zero env contract native v rest hz] at hok ⊢
      rw [transferLoop_zero env contract native v (rest ++ post) hz]
      exact ih native hok
    · rw [transferLoop_step env contract native v rest hz hT hte hg1 hg2] at hok ⊢
      rw [transferLoop_step env contract native v (rest ++ post) hz hT hte hg1 hg2]
      exact ih _ hok

/-- C7 as stated fails: the invocation with the states `7 → 8 : 5` and `8 → 9 : 3` on a
balance of `5` for `7` succeeds, and the joint balance of `7` and `8`, the accounts of its
first state, falls from `5` to `2`. -/
theorem GasTransfer_pair_not_conserved :
    sampleEnv.TransfersDeserialization [7, 8, 5, 8, 9, 3] = some [⟨7, 8, 5⟩, ⟨8, 9, 3⟩] ∧
      (GasTransfer sampleEnv { sampleNative [7, 8, 5, 8, 9, 3] 1487808001 2 with
        CacheDB := Put (fun _ => none) (GenBalanceKey 2 7) 5 }).err = none ∧
      balanceOf (Put (fun _ => none) (GenBalanceKey 2 7) 5) 2 7
        + balanceOf (Put (fun _ => none) (GenBalanceKey 2 7) 5) 2 8 = 5 ∧
      balanceOf (GasTransfer sampleEnv { sampleNative [7, 8, 5, 8, 9, 3] 1487808001 2 with
          CacheDB := Put (fun _ => none) (GenBalanceKey 2 7) 5 }).native.CacheDB 2 7
        + balanceOf (GasTransfer sampleEnv { sampleNative [7, 8, 5, 8, 9, 3] 1487808001 2 with
          CacheDB := Put (fun _ => none) (GenBalanceKey 2 7) 5 }).native.CacheDB 2 8 = 2 := by
  refine ⟨by decide, by decide, by decide, by decide⟩

/-- C7, amended: for every `GasTransfer` invocation that succeeds and every state
`(from, to, value)` in it, if every non-zero state of the invocation moves value between
`from` and `to` or between accounts other than these two (as when the invocation carries
that one state), then `balance(from) + balance(to)` after the invocation equals
`balance(from) + balance(to)` before it. -/
theorem GasTransfer_conservation (env : Env) (native : NativeService) (states : List State)
    (v : State) (hd : env.TransfersDeserialization native.Input = some states)
    (hv : v ∈ states) (hok : (GasTransfer env native).err = none)
    (hclosed : ∀ w ∈ states, w.Value ≠ 0 →
      ((w.From = v.From ∨ w.From = v.To) ↔ (w.To = v.From ∨ w.To = v.To))) :
    balanceOf (GasTransfer env native).native.CacheDB native.ContractAddress v.From
        + balanceOf (GasTransfer env native).native.CacheDB native.ContractAddress v.To
      = balanceOf native.CacheDB native.ContractAddress v.From
        + balanceOf native.CacheDB native.ContractAddress v.To := by
  have _ := hv
  simp only [GasTransfer, hd] at hok ⊢
  exact transferLoop_pair env native.ContractAddress v.From v.To states native hok hclosed

/-- C7 amended, on the invocation with the states `7 → 8 : 5` and `8 → 7 : 2` on a balance
of `5` for `7`. -/
theorem GasTransfer_conservation_witness :
    (GasTransfer sampleEnv { sampleNative [7, 8, 5, 8, 7, 2] 1487808001 2 with
        CacheDB := Put (fun _ => none) (GenBalanceKey 2 7) 5 }).err = none ∧
      balanceOf (GasTransfer sampleEnv { sampleNative [7, 8, 5, 8, 7, 2] 1487808001 2 with
        CacheDB := Put (fun _ => none) (GenBalanceKey 2 7) 5 }).native.CacheDB 2 7 = 2 ∧
      balanceOf (GasTransfer sampleEnv { sampleNative [7, 8, 5, 8, 7, 2] 1487808001 2 with
          CacheDB := Put (fun _ => none) (GenBalanceKey 2 7) 5 }).native.CacheDB 2 7
        + balanceOf (GasTransfer sampleEnv { sampleNative [7, 8, 5, 8, 7, 2] 1487808001 2 with
          CacheDB := Put (fun _ => none) (GenBalanceKey 2 7) 5 }).native.CacheDB 2 8
        = balanceOf (Put (fun _ => none) (GenBalanceKey 2 7) 5) 2 7
          + balanceOf (Put (fun _ => none) (GenBalanceKey 2 7) 5) 2 8 :=
  ⟨by decide, by decide,
    GasTransfer_conservation sampleEnv
      { sampleNative [7, 8, 5, 8, 7, 2] 1487808001 2 with
        CacheDB := Put (fun _ => none) (GenBalanceKey 2 7) 5 }
      [⟨7, 8, 5⟩, ⟨8, 7, 2⟩] ⟨7, 8, 5⟩ (by decide) (by decide) (by decide) (by decide)⟩

/-- C8 as stated fails: a transfer of `2^64 - 1`, more than the balance `5` of `from`, fails
with the over-supply error, not with the insufficient-balance error. -/
theorem GasTransfer_over_supply_error :
    sampleEnv.TransfersDeserialization [7, 8, 18446744073709551615]
        = some [⟨7, 8, 18446744073709551615⟩] ∧
      balanceOf (Put (fun _ => none) (GenBalanceKey 2 7) 5) 2 7 < 18446744073709551615 ∧
      (GasTransfer sampleEnv { sampleNative [7, 8, 18446744073709551615] 1487808001 2 with
        CacheDB := Put (fun _ => none) (GenBalanceKey 2 7) 5 }).err
        = some Error.overTotalSupply ∧
      (GasTransfer sampleEnv { sampleNative [7, 8, 18446744073709551615] 1487808001 2 with
        CacheDB := Put (fun _ => none) (GenBalanceKey 2 7) 5 }).err
        ≠ some Error.insufficientBalance := by
  refine ⟨by decide, by decide, by decide, by decide⟩

/-- C8, amended: for every transfer state `v` of an invocation, reached after the states
before it were carried out, whose value is more than the balance `from` then has,
`GasTransfer` fails with `BYTE_FALSE`, with the insufficient-balance error when the value is
at most `GAS_TOTAL_SUPPLY` and with the over-supply error when it is more, and it leaves
the service state, hence the balances of `from` and `to`, as they stood when the state was
reached. -/
theorem GasTransfer_exceeding_balance (env : Env) (native : NativeService)
    (pre post : List State) (v : State)
    (hd : env.TransfersDeserialization native.Input = some (pre ++ v :: post))
    (hpre : (transferLoop env native.ContractAddress native pre).err = none)
    (hgt : balanceOf (transferLoop env native.ContractAddress native pre).native.CacheDB
      native.ContractAddress v.From < v.Value) :
    (GasTransfer env native).err
        = some (if v.Value > GAS_TOTAL_SUPPLY then Error.overTotalSupply
            else Error.insufficientBalance) ∧
      (GasTransfer env native).ret = BYTE_FALSE ∧
      (GasTransfer env native).native
        = (transferLoop env native.ContractAddress native pre).native := by
  have hz : v.Value ≠ 0 := by omega
  simp only [GasTransfer, hd]
  rw [transferLoop_append env native.ContractAddress pre (v :: post) native hpre]
  simp only [transferLoop, if_neg hz]
  by_cases hT : v.Value > GAS_TOTAL_SUPPLY
  · simp only [if_pos hT, and_self]
  · obtain ⟨h1, h2⟩ := Transfer_insufficient
      (transferLoop env native.ContractAddress native pre).native native.ContractAddress v hgt
    simp only [if_neg hT, h1, h2, and_self]

/-- C8 amended, on a transfer of `6` from an account holding `5`. -/
theorem GasTransfer_exceeding_balance_witness :
    balanceOf (Put (fun _ => none) (GenBalanceKey 2 7) 5) 2 7 < 6 ∧
      (GasTransfer sampleEnv { sampleNative [7, 8, 6] 1487808001 2 with
        CacheDB := Put (fun _ => none) (GenBalanceKey 2 7) 5 }).err
        = some (if (⟨7, 8, 6⟩ : State).Value > GAS_TOTAL_SUPPLY then Error.overTotalSupply
            else Error.insufficientBalance) ∧
      (GasTransfer sampleEnv { sampleNative [7, 8, 6] 1487808001 2 with
        CacheDB := Put (fun _ => none) (GenBalanceKey 2 7) 5 }).ret = BYTE_FALSE ∧
      (GasTransfer sampleEnv { sampleNative [7, 8, 6] 1487808001 2 with
        CacheDB := Put (fun _ => none) (GenBalanceKey 2 7) 5 }).native
        = (transferLoop sampleEnv 2 { sampleNative [7, 8, 6] 1487808001 2 with
            CacheDB := Put (fun _ => none) (GenBalanceKey 2 7) 5 } []).native :=
  ⟨by decide,
    GasTransfer_exceeding_balance sampleEnv
      { sampleNative [7, 8, 6] 1487808001 2 with
        CacheDB := Put (fun _ => none) (GenBalanceKey 2 7) 5 }
      [] [] ⟨7, 8, 6⟩ (by decide) (by decide) (by decide)⟩

/-! ## The total-supply record is written by `GasInit` only -/

/-- A transfer writes balance records only. -/
theorem Transfer_frame (native : NativeService) (contract : Address) (state : State) (k : Key)
    (hk : ∀ c o, k ≠ Key.balance c o) :
    (Transfer native contract state).native.CacheDB k = native.CacheDB k := by
  unfold Transfer
  simp only
  split_ifs
  · rfl
  · rfl
  · simp only
    rw [Put_other _ (GenBalanceKey contract state.To) _ _ (hk _ _),
      Put_other _ (GenBalanceKey contract state.From) _ _ (hk _ _)]

/-- The handler `GasApprove` leaves every total-supply record as it was. -/
theorem GasApprove_keeps_totalSupply (env : Env) (native : NativeService) (c : Address) :
    (GasApprove env native).native.CacheDB (GenTotalSupplyKey c)
      = native.CacheDB (GenTotalSupplyKey c) :=
  (GasApprove_frame env native).1 _ (by simp [GenTotalSupplyKey])

/-- The transfer loop leaves every total-supply record as it was, whether it ends normally
or with an error. -/
theorem transferLoop_keeps_totalSupply (env : Env) (contract : Address) (states : List State)
    (native : NativeService) (c : Address) :
    (transferLoop env contract native states).native.CacheDB (GenTotalSupplyKey c)
      = native.CacheDB (GenTotalSupplyKey c) := by
  have hT : ∀ n : NativeService, ∀ v : State,
      (Transfer n contract v).native.CacheDB (GenTotalSupplyKey c)
        = n.CacheDB (GenTotalSupplyKey c) :=
    fun n v => Transfer_frame n contract v _ (by simp [GenTotalSupplyKey])
  have hG : ∀ (n : NativeService) (a : Address) (b : Nat),
      (grantOng env n contract a b).2.CacheDB (GenTotalSupplyKey c)
        = n.CacheDB (GenTotalSupplyKey c) :=
    fun n a b => (grantOng_frame env n contract a b).1 _ (by simp [GenTotalSupplyKey])
      (by simp [GenTotalSupplyKey, genAddressUnboundOffsetKey])
  induction states generalizing native with
  | nil => rfl
  | cons v rest ih =>
    simp only [transferLoop]
    by_cases hz : v.Value = 0
    · simp only [if_pos hz]
      exact ih native
    · simp only [if_neg hz]
      by_cases hv : v.Value > GAS_TOTAL_SUPPLY
      · simp only [if_pos hv]
      · simp only [if_neg hv]
        cases hte : (Transfer native contract v).err with
        | some e =>
          simp only [hte]
          exact hT native v
        | none =>
          simp only [hte]
          cases hg1 : (grantOng env (Transfer native contract v).native contract v.From
              (Transfer native contract v).fromBalance).1 with
          | some e =>
            simp only [hg1]
            rw [hG, hT]
          | none =>
            simp only [hg1]
            cases hg2 : (grantOng env
                (grantOng env (Transfer native contract v).native contract v.From
                  (Transfer native contract v).fromBalance).2 contract v.To
                (Transfer native contract v).toBalance).1 with
            | some e =>
              simp only [hg2]
              rw [hG, hG, hT]
            | none =>
              simp only [hg2]
              rw [ih]
              simp only [AddNotifications]
              rw [hG, hG, hT]

/-- The handler `GasTransfer` leaves every total-supply record as it was. -/
theorem GasTransfer_keeps_totalSupply (env : Env) (native : NativeService) (c : Address) :
    (GasTransfer env native).native.CacheDB (GenTotalSupplyKey c)
      = native.CacheDB (GenTotalSupplyKey c) := by
  unfold GasTransfer
  cases hd : env.TransfersDeserialization native.Input with
  | none => rfl
  | some states => exact transferLoop_keeps_totalSupply env native.ContractAddress states native c

/-! ## The checkpoint written by `grantOng` -/

/-- C11: for every successful call of `grantOng` in which the chain time is after genesis
and `endOffset = time - GENESIS_BLOCK_TIMESTAMP` is strictly greater than the stored
`startOffset`, the checkpoint of the owner afterwards is `endOffset`, for every balance
(zero or not) and every value the unbinding calculator computes (zero or not). -/
theorem grantOng_checkpoint_is_endOffset (env : Env) (native : NativeService)
    (contract address : Address) (balance : Nat)
    (htime : env.GENESIS_BLOCK_TIMESTAMP < native.Time)
    (hadv : getUnboundOffset native.CacheDB contract address
      < native.Time - env.GENESIS_BLOCK_TIMESTAMP)
    (hok : (grantOng env native contract address balance).1 = none) :
    getUnboundOffset (grantOng env native contract address balance).2.CacheDB contract address
      = native.Time - env.GENESIS_BLOCK_TIMESTAMP := by
  have h1 : ¬ native.Time ≤ env.GENESIS_BLOCK_TIMESTAMP := Nat.not_le.2 htime
  have h2 : ¬ native.Time - env.GENESIS_BLOCK_TIMESTAMP
      < getUnboundOffset native.CacheDB contract address := by omega
  have h3 : ¬ native.Time - env.GENESIS_BLOCK_TIMESTAMP
      = getUnboundOffset native.CacheDB contract address := by omega
  unfold grantOng at hok ⊢
  simp only at hok ⊢
  rw [if_neg h1, if_neg h2, if_neg h3] at hok ⊢
  by_cases h4 : balance ≠ 0
  · rw [if_pos h4] at hok ⊢
    split at hok
    · simp at hok
    · rename_i hr
      simp only [hr, getUnboundOffset, Put_same, Option.getD_some]
  · rw [if_neg h4]
    simp only [getUnboundOffset, Put_same, Option.getD_some]

/-- C11, on an owner with balance zero and checkpoint `0`, five seconds after genesis. -/
theorem grantOng_checkpoint_is_endOffset_witness :
    (grantOng sampleEnv (sampleNative [] 1487808005 2) 2 7 0).1 = none ∧
      getUnboundOffset (grantOng sampleEnv (sampleNative [] 1487808005 2) 2 7 0).2.CacheDB 2 7
        = (sampleNative [] 1487808005 2).Time - sampleEnv.GENESIS_BLOCK_TIMESTAMP ∧
      (sampleNative [] 1487808005 2).Time - sampleEnv.GENESIS_BLOCK_TIMESTAMP = 5 :=
  ⟨by decide,
    grantOng_checkpoint_is_endOffset sampleEnv (sampleNative [] 1487808005 2) 2 7 0
      (by decide) (by decide) (by decide),
    by decide⟩

/-- C12: for every store, owner and balance, if the chain time is after genesis and
`endOffset` is below the stored checkpoint `startOffset`, `grantOng` returns the
wrong-timestamp error and leaves the service state as it was: no allowance and no
checkpoint changes. -/
theorem grantOng_wrong_timestamp (env : Env) (native : NativeService)
    (contract address : Address) (balance : Nat)
    (htime : env.GENESIS_BLOCK_TIMESTAMP < native.Time)
    (hback : native.Time - env.GENESIS_BLOCK_TIMESTAMP
      < getUnboundOffset native.CacheDB contract address) :
    (grantOng env native contract address balance).1 = some Error.wrongTimestamp ∧
      (grantOng env native contract address balance).2 = native := by
  have h1 : ¬ native.Time ≤ env.GENESIS_BLOCK_TIMESTAMP := Nat.not_le.2 htime
  unfold grantOng
  simp only
  rw [if_neg h1, if_pos hback]
  exact ⟨rfl, rfl⟩

/-- C12, on an owner whose checkpoint is `9`, five seconds after genesis. -/
theorem grantOng_wrong_timestamp_witness :
    (grantOng sampleEnv { sampleNative [] 1487808005 2 with
        CacheDB := Put (fun _ => none) (genAddressUnboundOffsetKey 2 7) 9 } 2 7 3).1
        = some Error.wrongTimestamp ∧
      (grantOng sampleEnv { sampleNative [] 1487808005 2 with
        CacheDB := Put (fun _ => none) (genAddressUnboundOffsetKey 2 7) 9 } 2 7 3).2
        = { sampleNative [] 1487808005 2 with
            CacheDB := Put (fun _ => none) (genAddressUnboundOffsetKey 2 7) 9 } :=
  grantOng_wrong_timestamp sampleEnv
    { sampleNative [] 1487808005 2 with
      CacheDB := Put (fun _ => none) (genAddressUnboundOffsetKey 2 7) 9 }
    2 7 3 (by decide) (by decide)

/-- C13: for every store, owner and balance, if `endOffset`, the difference
`time - GENESIS_BLOCK_TIMESTAMP` that the code computes once the time is after genesis,
equals the stored `startOffset`, `grantOng` returns success and leaves the service state
as it was: no allowance changes and the checkpoint is unchanged. -/
theorem grantOng_same_offset (env : Env) (native : NativeService)
    (contract address : Address) (balance : Nat)
    (hsame : env.GENESIS_BLOCK_TIMESTAMP < native.Time →
      native.Time - env.GENESIS_BLOCK_TIMESTAMP
        = getUnboundOffset native.CacheDB contract address) :
    (grantOng env native contract address balance).1 = none ∧
      (grantOng env native contract address balance).2 = native := by
  unfold grantOng
  simp only
  by_cases h1 : native.Time ≤ env.GENESIS_BLOCK_TIMESTAMP
  · rw [if_pos h1]
    exact ⟨rfl, rfl⟩
  · have h3 := hsame (Nat.not_le.1 h1)
    rw [if_neg h1, if_neg (by omega), if_pos h3]
    exact ⟨rfl, rfl⟩

/-- C13, on an owner with balance `3` whose checkpoint is `5`, five seconds after
genesis. -/
theorem grantOng_same_offset_witness :
    (sampleNative [] 1487808005 2).Time - sampleEnv.GENESIS_BLOCK_TIMESTAMP
        = getUnboundOffset (Put (fun _ => none) (genAddressUnboundOffsetKey 2 7) 5) 2 7 ∧
      (grantOng sampleEnv { sampleNative [] 1487808005 2 with
        CacheDB := Put (fun _ => none) (genAddressUnboundOffsetKey 2 7) 5 } 2 7 3).1 = none ∧
      (grantOng sampleEnv { sampleNative [] 1487808005 2 with
        CacheDB := Put (fun _ => none) (genAddressUnboundOffsetKey 2 7) 5 } 2 7 3).2
        = { sampleNative [] 1487808005 2 with
            CacheDB := Put (fun _ => none) (genAddressUnboundOffsetKey 2 7) 5 } :=
  ⟨by decide,
    grantOng_same_offset sampleEnv
      { sampleNative [] 1487808005 2 with
        CacheDB := Put (fun _ => none) (genAddressUnboundOffsetKey 2 7) 5 }
      2 7 3 (fun _ => by decide)⟩

/-- C14: for every store, owner and balance, if the chain time is at or before
`GENESIS_BLOCK_TIMESTAMP`, `grantOng` returns success and leaves the service state as it
was: nothing is granted and no checkpoint is written; the result does not depend on the
difference `time - GENESIS_BLOCK_TIMESTAMP`, which is taken only after this check. -/
theorem grantOng_before_genesis (env : Env) (native : NativeService)
    (contract address : Address) (balance : Nat)
    (hearly : native.Time ≤ env.GENESIS_BLOCK_TIMESTAMP) :
    (grantOng env native contract address balance).1 = none ∧
      (grantOng env native contract address balance).2 = native := by
  unfold grantOng
  simp only
  rw [if_pos hearly]
  exact ⟨rfl, rfl⟩

/-- C14, on an owner with balance `3`, one second before genesis. -/
theorem grantOng_before_genesis_witness :
    (grantOng sampleEnv (sampleNative [] 1487807999 2) 2 7 3).1 = none ∧
      (grantOng sampleEnv (sampleNative [] 1487807999 2) 2 7 3).2
        = sampleNative [] 1487807999 2 :=
  grantOng_before_genesis sampleEnv (sampleNative [] 1487807999 2) 2 7 3 (by decide)

/-! ## The notifications of `GasInit` and the order of the map -/

/-- The distributing loop emits one notification per entry it visits, in visiting order: a
transfer from the empty address to the owner of the entry, of the value of the entry. -/
theorem distributeLoop_notifications (contract : Address) (it : List (Address × Nat))
    (native : NativeService) :
    (distributeLoop contract native it).Notifications
      = native.Notifications
        ++ it.map (fun e => (⟨contract, 0, e.1, e.2⟩ : NotifyEventInfo)) := by
  induction it generalizing native with
  | nil => simp [distributeLoop]
  | cons e it ih =>
    obtain ⟨a, v⟩ := e
    simp only [distributeLoop]
    rw [ih]
    simp [AddNotifications]

/-- The map accumulated from a distribution whose total is in range holds one entry per
distinct owner, with the sum of the amounts listed for that owner. -/
theorem foldl_mapAdd_entries (es : List (Address × Nat)) (hlt : totalOf es < U64) :
    (es.foldl (fun m e => mapAdd m e.1 e.2) []).Perm
      ((ownersOf es).map (fun a => (a, amountOf es a))) := by
  have hnd : ((es.foldl (fun m e => mapAdd m e.1 e.2) []).map Prod.fst).Nodup :=
    foldl_mapAdd_nodup es [] (by simp)
  have hkeys : ((es.foldl (fun m e => mapAdd m e.1 e.2) []).map Prod.fst).Perm (ownersOf es) := by
    apply (List.perm_ext_iff_of_nodup hnd (List.nodup_dedup _)).2
    intro a
    rw [foldl_mapAdd_keys]
    simp
  have hval : es.foldl (fun m e => mapAdd m e.1 e.2) []
      = ((es.foldl (fun m e => mapAdd m e.1 e.2) []).map Prod.fst).map
          (fun a => (a, amountOf es a)) := by
    rw [List.map_map]
    conv_lhs => rw [← List.map_id (es.foldl (fun m e => mapAdd m e.1 e.2) [])]
    apply List.map_congr_left
    intro e he
    have hv := amountOf_of_mem _ hnd e.1 e.2 he
    rw [foldl_mapAdd_amount es [] e.1 (by simpa [totalOf_nil] using hlt), amountOf_nil,
      Nat.zero_add] at hv
    simp [hv]
  rw [hval]
  exact hkeys.map _

/-- The decoded entries do not depend on the order in which a map is visited. -/
theorem readEntries_rangeOrder (env : Env) (order : List (Address × Nat) → List (Address × Nat))
    (n : Nat) (input : Bytes) :
    readEntries { env with rangeOrder := order } n input = readEntries env n input := by
  induction n generalizing input with
  | zero => rfl
  | succ n ih =>
    simp only [readEntries]
    cases env.DecodeAddress input with
    | none => rfl
    | some p =>
      simp only
      cases env.DecodeVarUint p.2 with
      | none => rfl
      | some q =>
        simp only
        rw [ih]

/-- The distribution a payload lists does not depend on the order in which a map is
visited. -/
theorem initPayload_rangeOrder (env : Env) (order : List (Address × Nat) → List (Address × Nat))
    (input : Bytes) :
    initPayload { env with rangeOrder := order } input = initPayload env input := by
  unfold initPayload
  simp only
  split_ifs
  · rfl
  · cases env.DecodeVarUint (env.NextVarBytes input).buf with
    | none => rfl
    | some q =>
      simp only
      exact readEntries_rangeOrder env order q.1 q.2

/-- The distributing loop over entries with distinct owners leaves a store that depends on
the set of entries only, not on the order in which they are visited. -/
theorem distributeLoop_store_perm (contract : Address) (it1 it2 : List (Address × Nat))
    (native : NativeService) (hperm : it1.Perm it2) (hnd : (it1.map Prod.fst).Nodup) (k : Key) :
    (distributeLoop contract native it1).CacheDB k
      = (distributeLoop contract native it2).CacheDB k := by
  have hnd2 : (it2.map Prod.fst).Nodup := (hperm.map Prod.fst).nodup_iff.1 hnd
  by_cases h : ∃ e ∈ it1, k = GenBalanceKey contract e.1
  · obtain ⟨e, he, rfl⟩ := h
    rw [distributeLoop_mem contract it1 native hnd e.1 e.2 he,
      distributeLoop_mem contract it2 native hnd2 e.1 e.2 (hperm.mem_iff.1 he)]
  · have h1 : ∀ e ∈ it1, k ≠ GenBalanceKey contract e.1 := fun e he hk => h ⟨e, he, hk⟩
    have h2 : ∀ e ∈ it2, k ≠ GenBalanceKey contract e.1 :=
      fun e he hk => h ⟨e, hperm.mem_iff.2 he, hk⟩
    rw [distributeLoop_frame contract it1 native k h1,
      distributeLoop_frame contract it2 native k h2]

/-- What an accepted call of `GasInit` does: the payload lists a distribution of total
`GAS_TOTAL_SUPPLY`; the accumulated map is visited in the order of the environment, and the
supply record is written last. -/
theorem GasInit_accepted_run (env : Env) (native : NativeService)
    (hok : (GasInit env native).ret = BYTE_TRUE) :
    ∃ es, initPayload env native.Input = some es ∧ totalOf es = GAS_TOTAL_SUPPLY ∧
      GetStorageUInt64 native.CacheDB (GenTotalSupplyKey native.ContractAddress) = 0 ∧
      GasInit env native =
        ⟨BYTE_TRUE, none,
          { distributeLoop native.ContractAddress native
              (env.rangeOrder (es.foldl (fun m e => mapAdd m e.1 e.2) [])) with
            CacheDB := Put
              (distributeLoop native.ContractAddress native
                (env.rangeOrder (es.foldl (fun m e => mapAdd m e.1 e.2) []))).CacheDB
              (GenTotalSupplyKey native.ContractAddress) GAS_TOTAL_SUPPLY }⟩ := by
  obtain ⟨hnew, es, hp, htot⟩ := GasInit_accepts env native hok
  have hrun := GasInit_of_payload env native es hnew hp (by rw [htot]; exact supply_lt_U64)
  rw [if_neg (by simp [htot])] at hrun
  exact ⟨es, hp, htot, hnew, hrun⟩

/-- C15: for every init payload that `GasInit` accepts, that is, answers with `BYTE_TRUE`,
whatever the order in which the Go map is visited, the notifications emitted are, up to their order, exactly one per distinct
owner address of the distribution (not one per payload entry), each a transfer with the
empty (zero) address as `From`, the owner as `To` and the total amount the payload lists for
that owner as `Value`. -/
theorem GasInit_notifications (env : Env) (native : NativeService)
    (hrange : ∀ m, (env.rangeOrder m).Perm m)
    (hok : (GasInit env native).ret = BYTE_TRUE) :
    ∃ es emitted, initPayload env native.Input = some es ∧
      (GasInit env native).native.Notifications = native.Notifications ++ emitted ∧
      emitted.Perm ((ownersOf es).map
        (fun a => (⟨native.ContractAddress, 0, a, amountOf es a⟩ : NotifyEventInfo))) := by
  obtain ⟨es, hp, htot, -, hrun⟩ := GasInit_accepted_run env native hok
  have hlt : totalOf es < U64 := by rw [htot]; exact supply_lt_U64
  refine ⟨es, (env.rangeOrder (es.foldl (fun m e => mapAdd m e.1 e.2) [])).map
    (fun e => (⟨native.ContractAddress, 0, e.1, e.2⟩ : NotifyEventInfo)), hp, ?_, ?_⟩
  · rw [hrun]
    exact distributeLoop_notifications _ _ _
  · have h1 := ((hrange (es.foldl (fun m e => mapAdd m e.1 e.2) [])).trans
      (foldl_mapAdd_entries es hlt)).map
      (fun e => (⟨native.ContractAddress, 0, e.1, e.2⟩ : NotifyEventInfo))
    rw [List.map_map] at h1
    exact h1

/-- C15, on the payload `{7: 700000000, 8: 200000000, 7: 100000000}` with the owner `7`
listed twice: two notifications, `8` first as the sample map is visited last entry
first. -/
theorem GasInit_notifications_witness :
    (GasInit sampleEnv
        (sampleNative [7, 3, 7, 700000000, 8, 200000000, 7, 100000000] 0 1)).native.Notifications
        = [⟨1, 0, 8, 200000000⟩, ⟨1, 0, 7, 800000000⟩] ∧
      ∃ es emitted, initPayload sampleEnv
          (sampleNative [7, 3, 7, 700000000, 8, 200000000, 7, 100000000] 0 1).Input = some es ∧
        (GasInit sampleEnv
          (sampleNative [7, 3, 7, 700000000, 8, 200000000, 7, 100000000] 0 1)).native.Notifications
          = (sampleNative [7, 3, 7, 700000000, 8, 200000000, 7, 100000000] 0 1).Notifications
            ++ emitted ∧
        emitted.Perm ((ownersOf es).map
          (fun a => (⟨(sampleNative [7, 3, 7, 700000000, 8, 200000000, 7, 100000000]
            0 1).ContractAddress, 0, a, amountOf es a⟩ : NotifyEventInfo))) :=
  ⟨by decide,
    GasInit_notifications sampleEnv
      (sampleNative [7, 3, 7, 700000000, 8, 200000000, 7, 100000000] 0 1)
      (fun m => List.reverse_perm m) (by decide)⟩

/-- C16 as stated fails: on the distribution `{7: 700000000, 8: 300000000}` the handler
accepts the payload under both visiting orders of the map, and the two sequences of
notifications differ: the owner `8` is notified first when the map is visited last entry
first, the owner `7` when it is visited first entry first. -/
theorem GasInit_notifications_follow_map_order :
    (GasInit sampleEnv (sampleNative [5, 2, 7, 700000000, 8, 300000000] 0 1)).err = none ∧
      (GasInit { sampleEnv with rangeOrder := fun m => m }
        (sampleNative [5, 2, 7, 700000000, 8, 300000000] 0 1)).err = none ∧
      (GasInit sampleEnv
        (sampleNative [5, 2, 7, 700000000, 8, 300000000] 0 1)).native.Notifications
        = [⟨1, 0, 8, 300000000⟩, ⟨1, 0, 7, 700000000⟩] ∧
      (GasInit { sampleEnv with rangeOrder := fun m => m }
        (sampleNative [5, 2, 7, 700000000, 8, 300000000] 0 1)).native.Notifications
        = [⟨1, 0, 7, 700000000⟩, ⟨1, 0, 8, 300000000⟩] ∧
      (GasInit sampleEnv
        (sampleNative [5, 2, 7, 700000000, 8, 300000000] 0 1)).native.Notifications
        ≠ (GasInit { sampleEnv with rangeOrder := fun m => m }
          (sampleNative [5, 2, 7, 700000000, 8, 300000000] 0 1)).native.Notifications := by
  refine ⟨by decide, by decide, by decide, by decide, by decide⟩

/-- C16, amended: for every init payload that `GasInit` accepts under one order of visiting
the distribution map, it accepts it under any other, the persisted store is identical
under the two orders, and the two sequences of emitted notifications hold the same
notifications, each in the order in which the map was visited. -/
theorem GasInit_store_order_independent (env : Env)
    (order1 order2 : List (Address × Nat) → List (Address × Nat))
    (h1 : ∀ m, (order1 m).Perm m) (h2 : ∀ m, (order2 m).Perm m) (native : NativeService)
    (hok : (GasInit { env with rangeOrder := order1 } native).err = none) :
    (GasInit { env with rangeOrder := order2 } native).err = none ∧
      (GasInit { env with rangeOrder := order1 } native).native.CacheDB
        = (GasInit { env with rangeOrder := order2 } native).native.CacheDB ∧
      (GasInit { env with rangeOrder := order1 } native).native.Notifications.Perm
        (GasInit { env with rangeOrder := order2 } native).native.Notifications := by
  rcases GasInit_no_error { env with rangeOrder := order1 } native hok with
    htrue | ⟨hnew0, heof0, hrun0⟩
  swap
  · have hrun0' : GasInit { env with rangeOrder := order2 } native
        = ⟨BYTE_FALSE, none, native⟩ := by
      have hn : ¬ GetStorageUInt64 native.CacheDB
          (GenTotalSupplyKey native.ContractAddress) > 0 := by omega
      simp only at heof0
      simp only [GasInit, hn, if_false, heof0, if_true]
    rw [hrun0, hrun0']
    exact ⟨rfl, rfl, List.Perm.refl _⟩
  obtain ⟨es, hp, htot, hnew, hrun1⟩ :=
    GasInit_accepted_run { env with rangeOrder := order1 } native htrue
  have hlt : totalOf es < U64 := by rw [htot]; exact supply_lt_U64
  have hp2 : initPayload { env with rangeOrder := order2 } native.Input = some es := by
    rw [initPayload_rangeOrder] at hp ⊢
    exact hp
  have hrun2 := GasInit_of_payload { env with rangeOrder := order2 } native es hnew hp2 hlt
  rw [if_neg (by simp [htot])] at hrun2
  simp only at hrun1 hrun2
  have hperm : (order1 (es.foldl (fun m e => mapAdd m e.1 e.2) [])).Perm
      (order2 (es.foldl (fun m e => mapAdd m e.1 e.2) [])) := (h1 _).trans (h2 _).symm
  have hnd : ((order1 (es.foldl (fun m e => mapAdd m e.1 e.2) [])).map Prod.fst).Nodup :=
    ((h1 _).map Prod.fst).nodup_iff.2 (foldl_mapAdd_nodup es [] (by simp))
  refine ⟨by rw [hrun2], ?_, ?_⟩
  · funext k
    rw [hrun1, hrun2]
    simp only
    by_cases hk : k = GenTotalSupplyKey native.ContractAddress
    · rw [hk, Put_same, Put_same]
    · rw [Put_other _ _ _ _ hk, Put_other _ _ _ _ hk]
      exact distributeLoop_store_perm _ _ _ native hperm hnd k
  · rw [hrun1, hrun2]
    simp only [distributeLoop_notifications]
    exact List.Perm.append_left _ (hperm.map _)

/-- C16 amended, on the distribution `{7: 700000000, 8: 300000000}`, visited last entry
first and first entry first. -/
theorem GasInit_store_order_independent_witness :
    (GasInit { sampleEnv with rangeOrder := fun m => m }
        (sampleNative [5, 2, 7, 700000000, 8, 300000000] 0 1)).err = none ∧
      (GasInit { sampleEnv with rangeOrder := List.reverse }
        (sampleNative [5, 2, 7, 700000000, 8, 300000000] 0 1)).native.CacheDB
        = (GasInit { sampleEnv with rangeOrder := fun m => m }
          (sampleNative [5, 2, 7, 700000000, 8, 300000000] 0 1)).native.CacheDB ∧
      (GasInit { sampleEnv with rangeOrder := List.reverse }
        (sampleNative [5, 2, 7, 700000000, 8, 300000000] 0 1)).native.Notifications.Perm
        (GasInit { sampleEnv with rangeOrder := fun m => m }
          (sampleNative [5, 2, 7, 700000000, 8, 300000000] 0 1)).native.Notifications :=
  GasInit_store_order_independent sampleEnv List.reverse (fun m => m)
    (fun m => List.reverse_perm m) (fun m => List.Perm.refl m)
    (sampleNative [5, 2, 7, 700000000, 8, 300000000] 0 1) (by decide)

/-! ## The cap on allowances -/

/-- The handler `GasApprove` keeps every allowance at or below `GAS_TOTAL_SUPPLY`. -/
theorem GasApprove_cap (env : Env) (native : NativeService)
    (hcap : ∀ c o p, allowanceOf native.CacheDB c o p ≤ GAS_TOTAL_SUPPLY) (c o p : Address) :
    allowanceOf (GasApprove env native).native.CacheDB c o p ≤ GAS_TOTAL_SUPPLY := by
  unfold GasApprove
  cases hd : env.StateDeserialization native.Input with
  | none => exact hcap c o p
  | some state =>
    simp only
    by_cases hv : state.Value > GAS_TOTAL_SUPPLY
    · rw [if_pos hv]
      exact hcap c o p
    · rw [if_neg hv]
      by_cases hw : native.CheckWitness state.From = false
      · rw [if_pos hw]
        exact hcap c o p
      · rw [if_neg hw]
        simp only [allowanceOf, GetStorageUInt64]
        by_cases hk : GenApproveKey c o p
            = GenApproveKey native.ContractAddress state.From state.To
        · rw [hk, Put_same]
          exact Nat.not_lt.1 hv
        · rw [Put_other _ _ _ _ hk]
          exact hcap c o p

/-- A cross-contract call keeps every allowance at or below `GAS_TOTAL_SUPPLY`. -/
theorem NativeCall_cap (env : Env) (native : NativeService) (address : Address)
    (method : String) (args : Bytes)
    (hcap : ∀ c o p, allowanceOf native.CacheDB c o p ≤ GAS_TOTAL_SUPPLY) (c o p : Address) :
    allowanceOf (NativeCall env native address method args).native.CacheDB c o p
      ≤ GAS_TOTAL_SUPPLY := by
  unfold NativeCall
  by_cases h : address = env.GasContractAddress ∧ method = "approve"
  · rw [if_pos h]
    exact GasApprove_cap env
      { native with
        Input := args
        ContractAddress := address
        CheckWitness := fun a => decide (a = native.ContractAddress) || native.CheckWitness a }
      hcap c o p
  · rw [if_neg h]
    exact hcap c o p

/-- The function `grantOng` keeps every allowance at or below `GAS_TOTAL_SUPPLY`. -/
theorem grantOng_cap (env : Env) (native : NativeService) (contract address : Address)
    (balance : Nat)
    (hcap : ∀ c o p, allowanceOf native.CacheDB c o p ≤ GAS_TOTAL_SUPPLY) (c o p : Address) :
    allowanceOf (grantOng env native contract address balance).2.CacheDB c o p
      ≤ GAS_TOTAL_SUPPLY := by
  have hoff : ∀ (s : Store) (v : Nat),
      allowanceOf (Put s (genAddressUnboundOffsetKey contract address) v) c o p
        = allowanceOf s c o p := by
    intro s v
    simp only [allowanceOf, GetStorageUInt64]
    rw [Put_other _ _ _ _ (by simp [GenApproveKey, genAddressUnboundOffsetKey])]
  unfold grantOng
  simp only
  split_ifs
  · exact hcap c o p
  · exact hcap c o p
  · exact hcap c o p
  · split
    · exact NativeCall_cap env native _ _ _ hcap c o p
    · simp only
      rw [hoff]
      exact NativeCall_cap env native _ _ _ hcap c o p
  · simp only
    rw [hoff]
    exact hcap c o p

/-- C19: `GasApprove` rejects every value above `GAS_TOTAL_SUPPLY` without writing, so if
every allowance record is at most `GAS_TOTAL_SUPPLY` before a call of `GasApprove` or of
`grantOng`, whose re-approval goes through `approve`, every allowance record is at most
`GAS_TOTAL_SUPPLY` after it. -/
theorem allowance_cap_invariant (env : Env) (native : NativeService)
    (hcap : ∀ c o p, allowanceOf native.CacheDB c o p ≤ GAS_TOTAL_SUPPLY) :
    (∀ state, env.StateDeserialization native.Input = some state →
        state.Value > GAS_TOTAL_SUPPLY →
        (GasApprove env native).err = some Error.overTotalSupply ∧
          (GasApprove env native).native = native) ∧
      (∀ c o p, allowanceOf (GasApprove env native).native.CacheDB c o p
        ≤ GAS_TOTAL_SUPPLY) ∧
      (∀ contract address balance c o p,
        allowanceOf (grantOng env native contract address balance).2.CacheDB c o p
          ≤ GAS_TOTAL_SUPPLY) := by
  refine ⟨?_, GasApprove_cap env native hcap, ?_⟩
  · intro state hd hv
    simp [GasApprove, hd, hv]
  · intro contract address balance c o p
    exact grantOng_cap env native contract address balance hcap c o p

/-- C19, on a store whose only allowance is `1000000000`, held by the owner `7` from the
running contract, with an approve input of `5` and a grant for the balance `3`. -/
theorem allowance_cap_invariant_witness :
    allowanceOf (grantOng sampleEnv { sampleNative [2, 7, 5] 1487808001 2 with
        CacheDB := Put (fun _ => none) (GenApproveKey 2 2 7) 1000000000 } 2 7 3).2.CacheDB
        2 2 7 = 1000000000 ∧
      (grantOng sampleEnv { sampleNative [2, 7, 5] 1487808001 2 with
        CacheDB := Put (fun _ => none) (GenApproveKey 2 2 7) 1000000000 } 2 7 3).1
        = some Error.overTotalSupply ∧
      ((∀ state, sampleEnv.StateDeserialization ({ sampleNative [2, 7, 5] 1487808001 2 with
            CacheDB := Put (fun _ => none) (GenApproveKey 2 2 7) 1000000000 }
            : NativeService).Input = some state →
          state.Value > GAS_TOTAL_SUPPLY →
          (GasApprove sampleEnv { sampleNative [2, 7, 5] 1487808001 2 with
            CacheDB := Put (fun _ => none) (GenApproveKey 2 2 7) 1000000000 }).err
            = some Error.overTotalSupply ∧
          (GasApprove sampleEnv { sampleNative [2, 7, 5] 1487808001 2 with
            CacheDB := Put (fun _ => none) (GenApproveKey 2 2 7) 1000000000 }).native
            = { sampleNative [2, 7, 5] 1487808001 2 with
                CacheDB := Put (fun _ => none) (GenApproveKey 2 2 7) 1000000000 }) ∧
        (∀ c o p, allowanceOf (GasApprove sampleEnv { sampleNative [2, 7, 5] 1487808001 2 with
            CacheDB := Put (fun _ => none) (GenApproveKey 2 2 7) 1000000000 }).native.CacheDB
            c o p ≤ GAS_TOTAL_SUPPLY) ∧
        (∀ contract address balance c o p,
          allowanceOf (grantOng sampleEnv { sampleNative [2, 7, 5] 1487808001 2 with
            CacheDB := Put (fun _ => none) (GenApproveKey 2 2 7) 1000000000 }
            contract address balance).2.CacheDB c o p ≤ GAS_TOTAL_SUPPLY)) :=
  ⟨by decide, by decide,
    allowance_cap_invariant sampleEnv
      { sampleNative [2, 7, 5] 1487808001 2 with
        CacheDB := Put (fun _ => none) (GenApproveKey 2 2 7) 1000000000 }
      (by
        intro c o p
        simp only [allowanceOf, GetStorageUInt64, Put]
        split_ifs <;> simp [GAS_TOTAL_SUPPLY])⟩

/-- A transfer on an allowance leaves every total-supply record as it was. -/
theorem TransferedFrom_keeps_totalSupply (native : NativeService) (contract : Address)
    (state : TransferFrom) (c : Address) :
    (TransferedFrom native contract state).native.CacheDB (GenTotalSupplyKey c)
      = native.CacheDB (GenTotalSupplyKey c) := by
  unfold TransferedFrom
  simp only
  split_ifs
  · rfl
  · split
    · rfl
    · simp only
      rw [Put_other _ _ _ _ (by simp [GenTotalSupplyKey, GenApproveKey])]
      exact Transfer_frame native contract _ _ (by simp [GenTotalSupplyKey])

/-- The handler `GasTransferFrom` leaves every total-supply record as it was. -/
theorem GasTransferFrom_keeps_totalSupply (env : Env) (native : NativeService) (c : Address) :
    (GasTransferFrom env native).native.CacheDB (GenTotalSupplyKey c)
      = native.CacheDB (GenTotalSupplyKey c) := by
  have hG : ∀ (n : NativeService) (a : Address) (b : Nat),
      (grantOng env n native.ContractAddress a b).2.CacheDB (GenTotalSupplyKey c)
        = n.CacheDB (GenTotalSupplyKey c) :=
    fun n a b => (grantOng_frame env n native.ContractAddress a b).1 _
      (by simp [GenTotalSupplyKey])
      (by simp [GenTotalSupplyKey, genAddressUnboundOffsetKey])
  have hT := TransferedFrom_keeps_totalSupply native native.ContractAddress
  unfold GasTransferFrom
  cases hd : env.TransferFromDeserialization native.Input with
  | none => rfl
  | some state =>
    simp only
    split_ifs
    · rfl
    · rfl
    · split
      · exact hT state c
      · split
        · simp only
          rw [hG, hT]
        · split
          · simp only
            rw [hG, hG, hT]
          · simp only [AddNotifications]
            rw [hG, hG, hT]

/-! ## Transfers of value zero -/

/-- C20: for every well-formed transferFrom input with `Value == 0`, `GasTransferFrom`
returns `BYTE_FALSE` with no error and leaves the service state as it was: no allowance,
balance or checkpoint is written and no notification is emitted; whereas `GasTransfer`
skips every state of value zero, and on an input whose states all have value zero returns
`BYTE_TRUE` with no error, also leaving the service state as it was. -/
theorem zero_value_transfers (env : Env) (native : NativeService) :
    (∀ state, env.TransferFromDeserialization native.Input = some state → state.Value = 0 →
        (GasTransferFrom env native).ret = BYTE_FALSE ∧
          (GasTransferFrom env native).err = none ∧
          (GasTransferFrom env native).native = native) ∧
      (∀ (v : State) (rest : List State), v.Value = 0 →
        transferLoop env native.ContractAddress native (v :: rest)
          = transferLoop env native.ContractAddress native rest) ∧
      (∀ states, env.TransfersDeserialization native.Input = some states →
        (∀ v ∈ states, v.Value = 0) →
        (GasTransfer env native).ret = BYTE_TRUE ∧
          (GasTransfer env native).err = none ∧
          (GasTransfer env native).native = native) := by
  refine ⟨?_, ?_, ?_⟩
  · intro state hd hz
    simp [GasTransferFrom, hd, hz]
  · intro v rest hz
    exact transferLoop_zero env native.ContractAddress native v rest hz
  · have hloop : ∀ states : List State, (∀ v ∈ states, v.Value = 0) →
        transferLoop env native.ContractAddress native states
          = ⟨BYTE_TRUE, none, native⟩ := by
      intro states
      induction states with
      | nil => intro _; rfl
      | cons v rest ih =>
        intro hall
        rw [transferLoop_zero env native.ContractAddress native v rest
          (hall v (List.mem_cons_self _ _))]
        exact ih (fun w hw => hall w (List.mem_cons_of_mem _ hw))
    intro states hd hall
    simp only [GasTransfer, hd, hloop states hall, and_self]

/-- C20, on the transfer `7 → 8 : 0` given to both handlers, the owner `7` holding `5` and
having granted `8` an allowance of `4`. -/
theorem zero_value_transfers_witness :
    (GasTransferFrom sampleEnv { sampleNative [7, 8, 0] 1487808001 2 with
        CacheDB := Put (Put (fun _ => none) (GenBalanceKey 2 7) 5) (GenApproveKey 2 7 8) 4 }).ret
        = BYTE_FALSE ∧
      (GasTransferFrom sampleEnv { sampleNative [7, 8, 0] 1487808001 2 with
        CacheDB := Put (Put (fun _ => none) (GenBalanceKey 2 7) 5) (GenApproveKey 2 7 8) 4 }).err
        = none ∧
      (GasTransferFrom sampleEnv { sampleNative [7, 8, 0] 1487808001 2 with
        CacheDB := Put (Put (fun _ => none) (GenBalanceKey 2 7) 5)
          (GenApproveKey 2 7 8) 4 }).native
        = { sampleNative [7, 8, 0] 1487808001 2 with
            CacheDB := Put (Put (fun _ => none) (GenBalanceKey 2 7) 5) (GenApproveKey 2 7 8) 4 } ∧
      (GasTransfer sampleEnv { sampleNative [7, 8, 0] 1487808001 2 with
        CacheDB := Put (Put (fun _ => none) (GenBalanceKey 2 7) 5) (GenApproveKey 2 7 8) 4 }).ret
        = BYTE_TRUE ∧
      (GasTransfer sampleEnv { sampleNative [7, 8, 0] 1487808001 2 with
        CacheDB := Put (Put (fun _ => none) (GenBalanceKey 2 7) 5) (GenApproveKey 2 7 8) 4 }).err
        = none ∧
      (GasTransfer sampleEnv { sampleNative [7, 8, 0] 1487808001 2 with
        CacheDB := Put (Put (fun _ => none) (GenBalanceKey 2 7) 5)
          (GenApproveKey 2 7 8) 4 }).native
        = { sampleNative [7, 8, 0] 1487808001 2 with
            CacheDB := Put (Put (fun _ => none) (GenBalanceKey 2 7) 5) (GenApproveKey 2 7 8) 4 } :=
  ⟨((zero_value_transfers sampleEnv { sampleNative [7, 8, 0] 1487808001 2 with
        CacheDB := Put (Put (fun _ => none) (GenBalanceKey 2 7) 5)
          (GenApproveKey 2 7 8) 4 }).1 ⟨7, 8, 0⟩ (by decide) rfl).1,
    ((zero_value_transfers sampleEnv { sampleNative [7, 8, 0] 1487808001 2 with
        CacheDB := Put (Put (fun _ => none) (GenBalanceKey 2 7) 5)
          (GenApproveKey 2 7 8) 4 }).1 ⟨7, 8, 0⟩ (by decide) rfl).2.1,
    ((zero_value_transfers sampleEnv { sampleNative [7, 8, 0] 1487808001 2 with
        CacheDB := Put (Put (fun _ => none) (GenBalanceKey 2 7) 5)
          (GenApproveKey 2 7 8) 4 }).1 ⟨7, 8, 0⟩ (by decide) rfl).2.2,
    ((zero_value_transfers sampleEnv { sampleNative [7, 8, 0] 1487808001 2 with
        CacheDB := Put (Put (fun _ => none) (GenBalanceKey 2 7) 5)
          (GenApproveKey 2 7 8) 4 }).2.2 [⟨7, 8, 0⟩] (by decide) (by decide)).1,
    ((zero_value_transfers sampleEnv { sampleNative [7, 8, 0] 1487808001 2 with
        CacheDB := Put (Put (fun _ => none) (GenBalanceKey 2 7) 5)
          (GenApproveKey 2 7 8) 4 }).2.2 [⟨7, 8, 0⟩] (by decide) (by decide)).2.1,
    ((zero_value_transfers sampleEnv { sampleNative [7, 8, 0] 1487808001 2 with
        CacheDB := Put (Put (fun _ => none) (GenBalanceKey 2 7) 5)
          (GenApproveKey 2 7 8) 4 }).2.2 [⟨7, 8, 0⟩] (by decide) (by decide)).2.2⟩

end Gas

namespace Genesis

/-! ## The genesis block -/

/-- The date of the genesis header, 2017-02-23 00:00:00 UTC, is `1487808000` seconds after
the epoch. -/
theorem dateUnix_genesis : dateUnix 2017 2 23 0 0 0 = 1487808000 := by decide

/-- The transaction `NewGoverningToken()` deploys the code `"ONT Token"` under the name
`ONT`, for the native virtual machine, with storage. -/
theorem NewGoverningToken_eq :
    NewGoverningToken
      = Transaction.deploy [79, 78, 84, 32, 84, 111, 107, 101, 110] "ONT" "1.0" "Ontology Team"
          "contact@ont.io" "Ontology Network ONT Token" VmType.NativeVM true := by
  decide

/-- The transaction `NewUtilityToken()` deploys the code `"ONT Token"` under the name `ONG`,
for the native virtual machine, with storage. -/
theorem NewUtilityToken_eq :
    NewUtilityToken
      = Transaction.deploy [79, 78, 84, 32, 84, 111, 107, 101, 110] "ONG" "1.0" "Ontology Team"
          "contact@ont.io" "Ontology Network ONG Token" VmType.NativeVM true := by
  decide

/-- The transaction `NewGoverningInit()` invokes the native code of line 92. -/
theorem NewGoverningInit_eq :
    NewGoverningInit
      = Transaction.invoke
          ⟨VmType.NativeVM,
            [21, 67, 111, 109, 109, 111, 110, 46, 84, 111, 107, 101, 110, 46, 84, 114, 97, 110,
              115, 102, 101, 114]⟩ := by
  decide

/-- C17: for every book-keeper set whose next-book-keeper address derivation succeeds,
`GenesisBlockInit` returns, with no error, a block whose header has `Version` 0, zero
`PrevBlockHash`, zero `TransactionsRoot`, the timestamp `1487808000` of 2017-02-23 00:00:00
UTC, `Height` 0, `ConsensusData` 2083236893, `NextBookKeeper` the derived address, no
book-keepers and no signatures, and whose transactions are, in this order, the deployment of
the governance token (name `ONT`), the deployment of the utility token (name `ONG`) and the
governance-init invocation; when the derivation fails it returns an error and no block. -/
theorem GenesisBlockInit_block (AddressFromBookKeepers : List PubKey → Option Gas.Address)
    (defaultBookKeeper : List PubKey) :
    (∀ nextBookKeeper, AddressFromBookKeepers defaultBookKeeper = some nextBookKeeper →
        (GenesisBlockInit AddressFromBookKeepers defaultBookKeeper).err = none ∧
        (GenesisBlockInit AddressFromBookKeepers defaultBookKeeper).block
          = some
              { Header :=
                  { Version := 0
                    PrevBlockHash := 0
                    TransactionsRoot := 0
                    Timestamp := 1487808000
                    Height := 0
                    ConsensusData := 2083236893
                    NextBookKeeper := nextBookKeeper
                    BookKeepers := []
                    SigData := [] }
                Transactions :=
                  [Transaction.deploy [79, 78, 84, 32, 84, 111, 107, 101, 110] "ONT" "1.0"
                      "Ontology Team" "contact@ont.io" "Ontology Network ONT Token"
                      VmType.NativeVM true,
                    Transaction.deploy [79, 78, 84, 32, 84, 111, 107, 101, 110] "ONG" "1.0"
                      "Ontology Team" "contact@ont.io" "Ontology Network ONG Token"
                      VmType.NativeVM true,
                    Transaction.invoke
                      ⟨VmType.NativeVM,
                        [21, 67, 111, 109, 109, 111, 110, 46, 84, 111, 107, 101, 110, 46, 84,
                          114, 97, 110, 115, 102, 101, 114]⟩] }) ∧
      (AddressFromBookKeepers defaultBookKeeper = none →
        (GenesisBlockInit AddressFromBookKeepers defaultBookKeeper).err ≠ none ∧
        (GenesisBlockInit AddressFromBookKeepers defaultBookKeeper).block = none) := by
  constructor
  · intro nextBookKeeper h
    have ht : dateUnix 2017 2 23 0 0 0 % 2 ^ 32 = 1487808000 := by decide
    simp only [GenesisBlockInit, h, ht, BlockVersion, GenesisNonce, true_and,
      NewGoverningToken_eq, NewUtilityToken_eq, NewGoverningInit_eq]
  · intro h
    simp [GenesisBlockInit, h]

/-- C17, on a set of two book-keepers, and on the empty set, for which the sample
derivation fails. -/
theorem GenesisBlockInit_block_witness :
    sampleAddressFromBookKeepers [⟨1, 2⟩, ⟨3, 4⟩] = some 10 ∧
      (GenesisBlockInit sampleAddressFromBookKeepers [⟨1, 2⟩, ⟨3, 4⟩]).err = none ∧
      (GenesisBlockInit sampleAddressFromBookKeepers [⟨1, 2⟩, ⟨3, 4⟩]).block
        = some
            { Header :=
                { Version := 0
                  PrevBlockHash := 0
                  TransactionsRoot := 0
                  Timestamp := 1487808000
                  Height := 0
                  ConsensusData := 2083236893
                  NextBookKeeper := 10
                  BookKeepers := []
                  SigData := [] }
              Transactions :=
                [Transaction.deploy [79, 78, 84, 32, 84, 111, 107, 101, 110] "ONT" "1.0"
                    "Ontology Team" "contact@ont.io" "Ontology Network ONT Token"
                    VmType.NativeVM true,
                  Transaction.deploy [79, 78, 84, 32, 84, 111, 107, 101, 110] "ONG" "1.0"
                    "Ontology Team" "contact@ont.io" "Ontology Network ONG Token"
                    VmType.NativeVM true,
                  Transaction.invoke
                    ⟨VmType.NativeVM,
                      [21, 67, 111, 109, 109, 111, 110, 46, 84, 111, 107, 101, 110, 46, 84,
                        114, 97, 110, 115, 102, 101, 114]⟩] } ∧
      (GenesisBlockInit sampleAddressFromBookKeepers []).err ≠ none ∧
      (GenesisBlockInit sampleAddressFromBookKeepers []).block = none :=
  ⟨by decide,
    ((GenesisBlockInit_block sampleAddressFromBookKeepers [⟨1, 2⟩, ⟨3, 4⟩]).1 10
      (by decide)).1,
    ((GenesisBlockInit_block sampleAddressFromBookKeepers [⟨1, 2⟩, ⟨3, 4⟩]).1 10
      (by decide)).2,
    ((GenesisBlockInit_block sampleAddressFromBookKeepers []).2 (by decide)).1,
    ((GenesisBlockInit_block sampleAddressFromBookKeepers []).2 (by decide)).2⟩

end Genesis

namespace Auth

/-! ## The codec of `FuncsToRoleParam` -/

/-- Reading the groups written for `n` gives `n` back, with the input that follows. -/
theorem decodeGroups_encodeGroups (fuel n : Nat) (rest : List Nat) (h : n < 128 ^ (fuel + 1)) :
    decodeGroups (encodeGroups fuel n ++ rest) = some (n, rest) := by
  induction fuel generalizing n with
  | zero =>
    have hn : n < 128 := by simpa using h
    simp [encodeGroups, decodeGroups, hn]
  | succ fuel ih =>
    by_cases hn : n < 128
    · simp [encodeGroups, decodeGroups, hn]
    · have hdiv : n / 128 < 128 ^ (fuel + 1) := by
        rw [Nat.div_lt_iff_lt_mul (by decide)]
        rw [Nat.pow_succ] at h
        exact h
      have hb : ¬ n % 128 + 128 < 128 := by omega
      simp only [encodeGroups, if_neg hn, List.cons_append, decodeGroups, if_neg hb,
        ih (n / 128) hdiv]
      have := Nat.mod_add_div n 128
      simp only [Option.some.injEq, Prod.mk.injEq, and_true]
      omega

/-- Reading a varint written for a `uint64` gives it back, with the input that follows. -/
theorem DecodeVarUint_EncodeVarUint (n : Nat) (rest : List Nat) (h : n < 2 ^ 64) :
    DecodeVarUint (EncodeVarUint n ++ rest) = some (n, rest) := by
  have h128 : n < 128 ^ (9 + 1) := Nat.lt_trans h (by decide)
  simp only [DecodeVarUint, EncodeVarUint, decodeGroups_encodeGroups 9 n rest h128, if_pos h]

/-- Reading a length-prefixed byte string gives it back, with the input that follows. -/
theorem NextVarBytes_WriteVarBytes (data rest : List Nat) (h : data.length < 2 ^ 64) :
    NextVarBytes (WriteVarBytes data ++ rest) = some (data, rest) := by
  simp [NextVarBytes, WriteVarBytes, List.append_assoc,
    DecodeVarUint_EncodeVarUint data.length (data ++ rest) h]

/-- Reading as many strings as were written gives them back in order, with the input that
follows. -/
theorem readStrings_writeStrings (fns : List (List Nat)) (rest : List Nat)
    (h : ∀ fn ∈ fns, fn.length < 2 ^ 64) :
    readStrings fns.length (writeStrings fns ++ rest) = some (fns, rest) := by
  induction fns with
  | nil => rfl
  | cons fn fns ih =>
    simp only [List.length_cons, readStrings, writeStrings, List.append_assoc,
      NextVarBytes_WriteVarBytes fn _ (h fn (List.mem_cons_self _ _)),
      ih (fun g hg => h g (List.mem_cons_of_mem _ hg))]

/-- C18: deserialisation undoes serialisation for `FuncsToRoleParam`: for every parameter
(a contract address of the fixed width, admin id bytes, role bytes and a list of
function-name strings, the lengths being `uint64` values), deserialising the bytes it
serialises to succeeds and yields the parameter itself, so the sequence of function names
is preserved in order and in length. -/
theorem FuncsToRoleParam_roundtrip (param : FuncsToRoleParam)
    (haddr : param.ContractAddr.length = ADDR_LEN)
    (hadmin : param.AdminOntID.length < 2 ^ 64) (hrole : param.Role.length < 2 ^ 64)
    (hcount : param.FuncNames.length < 2 ^ 64)
    (hnames : ∀ fn ∈ param.FuncNames, fn.length < 2 ^ 64) :
    FuncsToRoleParam.Deserialization (FuncsToRoleParam.Serialization param) = some param := by
  have h1 : NextAddress (FuncsToRoleParam.Serialization param)
      = some (param.ContractAddr, WriteVarBytes param.AdminOntID ++ (WriteVarBytes param.Role ++
          (EncodeVarUint param.FuncNames.length ++ writeStrings param.FuncNames))) := by
    simp [NextAddress, FuncsToRoleParam.Serialization, ← haddr]
  have h5 := readStrings_writeStrings param.FuncNames [] hnames
  rw [List.append_nil] at h5
  simp only [FuncsToRoleParam.Deserialization, h1,
    NextVarBytes_WriteVarBytes param.AdminOntID _ hadmin,
    NextVarBytes_WriteVarBytes param.Role _ hrole,
    DecodeVarUint_EncodeVarUint param.FuncNames.length _ hcount, h5]

/-- C18, on the parameter of the test `TestSerialization_AssignFuncs`. -/
theorem FuncsToRoleParam_roundtrip_witness :
    FuncsToRoleParam.Serialization sampleParam
        = [0, 0, 0, 0, 0, 0, 0, 0, 0, 0, 0, 0, 0, 0, 0, 0, 0, 0, 0, 2, 4, 200, 17, 255, 3,
            4, 114, 111, 108, 101, 2, 4, 102, 111, 111, 49, 4, 102, 111, 111, 50] ∧
      FuncsToRoleParam.Deserialization (FuncsToRoleParam.Serialization sampleParam)
        = some sampleParam :=
  ⟨by decide,
    FuncsToRoleParam_roundtrip sampleParam (by decide) (by decide) (by decide) (by decide)
      (by decide)⟩

end Auth
